import Mathlib

/-!
Shallow embedding of the Psd-to-Elementor structural-inference core
(spatial clustering, layout inference, widget classification, text-role
scoring, orchestration) together with theorems checking the written
specification against the code.

All pixel coordinates and font sizes are modelled as rationals; JavaScript
stable `Array.sort` is modelled by `List.insertionSort` (a stable sort);
`Math.sqrt`-based threshold comparisons are modelled by the equivalent
squared comparison (see `getMinDistanceLe`).
-/

set_option maxHeartbeats 1000000

/-- Axis-aligned bounding box. The JavaScript bounds records store
`top`, `left`, `right`, `bottom` and the derived `width`/`height`
as plain fields, so all six are modelled as stored fields. -/
structure Bounds where
  top : ℚ
  left : ℚ
  right : ℚ
  bottom : ℚ
  width : ℚ
  height : ℚ
deriving DecidableEq, Repr

/-- Builds a bounds record with consistent derived width/height,
mirroring how the PSD parser constructs bounds objects. -/
def Bounds.make (top left right bottom : ℚ) : Bounds :=
  ⟨top, left, right, bottom, right - left, bottom - top⟩

/-- Layer kind tag (`layer.type` in the source: 'text' | 'image' | 'shape' | 'group'). -/
inductive LayerType where
  | text
  | image
  | shape
  | group
deriving DecidableEq, Repr

/-- Subset of the normalized text style record produced by
`TextStyleExtractor.extract` that the modelled code paths read
(`text`, `fontSize`, `fontWeight`). -/
structure TextInfo where
  text : String
  fontSize : ℚ
  fontWeight : String
deriving DecidableEq, Repr

/-- The neutral text style `TextStyleExtractor.extract` produces for an
absent `textData` (16px, normal weight, empty text). -/
def textStyleFallback : TextInfo := ⟨"", 16, "normal"⟩

/-- A flat layer record as produced by the PSD parser for leaves:
`id`, `name`, `type`, `visible`, `bounds`, optional `textInfo`, and the
`hasImage` flag set on non-group non-text layers. -/
structure Layer where
  id : ℕ
  name : String
  type : LayerType
  visible : Bool
  bounds : Bounds
  textInfo : Option TextInfo
  hasImage : Bool
deriving DecidableEq, Repr

namespace LayoutDistanceHelper

/-- `LayoutDistanceHelper.verticalDistance`: vertical gap between two
elements, 0 if they overlap vertically. -/
def verticalDistance (a b : Bounds) : ℚ :=
  if a.bottom < b.top then b.top - a.bottom
  else if b.bottom < a.top then a.top - b.bottom
  else 0

/-- `LayoutDistanceHelper.horizontalDistance`: horizontal gap between two
elements, 0 if they overlap horizontally. -/
def horizontalDistance (a b : Bounds) : ℚ :=
  if a.right < b.left then b.left - a.right
  else if b.right < a.left then a.left - b.right
  else 0

/-- `LayoutDistanceHelper.smartDistance`: the horizontal gap when the
vertical gap is zero, the vertical gap when the horizontal gap is zero,
and otherwise the minimum of the two gaps. -/
def smartDistance (a b : Bounds) : ℚ :=
  let vertical := verticalDistance a b
  let horizontal := horizontalDistance a b
  if vertical = 0 then horizontal
  else if horizontal = 0 then vertical
  else min vertical horizontal

/-- The spec's claimed behaviour of `smartDistance` (written from the
spec sentence, for comparison with the source function): vertical gap if
nonzero, else horizontal gap if nonzero, else 0. -/
def smartDistanceClaim (a b : Bounds) : ℚ :=
  if verticalDistance a b ≠ 0 then verticalDistance a b
  else if horizontalDistance a b ≠ 0 then horizontalDistance a b
  else 0

/-- The amended description of `smartDistance` (written from the amended
spec sentence): horizontal gap when the vertical gap is zero, else
vertical gap when the horizontal gap is zero, else the minimum of the
two nonzero gaps. -/
def smartDistanceSpec (a b : Bounds) : ℚ :=
  if verticalDistance a b = 0 then horizontalDistance a b
  else if horizontalDistance a b = 0 then verticalDistance a b
  else min (verticalDistance a b) (horizontalDistance a b)

end LayoutDistanceHelper

/-- Rectangle `[0,10] × [0,10]` (left,right × top,bottom). -/
def rectA : Bounds := Bounds.make 0 0 10 10

/-- Rectangle `[12,20] × [15,25]`: 2px to the right of and 5px below
`rectA`, so both axis gaps are nonzero. -/
def rectB : Bounds := Bounds.make 15 12 20 25

/-- C7 counterexample: for `rectA`/`rectB` the vertical gap is 5 and the
horizontal gap is 2, both nonzero, and `smartDistance` returns the
minimum 2, not the vertical gap claimed by the spec. -/
theorem smartDistance_claim_false :
    LayoutDistanceHelper.verticalDistance rectA rectB ≠ 0 ∧
    LayoutDistanceHelper.smartDistance rectA rectB = 2 ∧
    LayoutDistanceHelper.smartDistance rectA rectB ≠
      LayoutDistanceHelper.verticalDistance rectA rectB ∧
    LayoutDistanceHelper.smartDistance rectA rectB ≠
      LayoutDistanceHelper.smartDistanceClaim rectA rectB := by
  refine ⟨?_, ?_, ?_, ?_⟩ <;>
    norm_num [rectA, rectB, Bounds.make, LayoutDistanceHelper.smartDistance,
      LayoutDistanceHelper.smartDistanceClaim, LayoutDistanceHelper.verticalDistance,
      LayoutDistanceHelper.horizontalDistance]

/-- C7 amended: `smartDistance` equals the amended specification on all
rectangle pairs: horizontal gap when the vertical gap is zero, vertical
gap when the horizontal gap is zero, otherwise the minimum of the two
gaps (in particular 0 when the rectangles overlap on both axes). -/
theorem smartDistance_spec_correct (a b : Bounds) :
    LayoutDistanceHelper.smartDistance a b = LayoutDistanceHelper.smartDistanceSpec a b := by
  unfold LayoutDistanceHelper.smartDistance LayoutDistanceHelper.smartDistanceSpec
  split <;> simp_all

/-- Flex direction values used by `ContainerLayoutHelper` ("row" / "column"). -/
inductive Direction where
  | row
  | column
deriving DecidableEq, Repr

namespace ContainerLayoutHelper

/-- The consecutive-pairs loop of `calculateGap`: distances between each
adjacent pair of the (sorted) children. -/
def consecGaps (f : Bounds → Bounds → ℚ) : List Layer → List ℚ
  | a :: b :: rest => f a.bounds b.bounds :: consecGaps f (b :: rest)
  | _ => []

/-- `ContainerLayoutHelper.calculateGap`: sort children along the axis
chosen by `direction`, collect the positive consecutive axis gaps, sort
them ascending, and return the element at index `⌊n/2⌋` (0 when there is
no positive gap). JavaScript's stable `Array.sort` is modelled by
`List.insertionSort`. -/
def calculateGap (children : List Layer) (direction : Direction) : ℚ :=
  if children.length < 2 then 0
  else
    let sorted := children.insertionSort (fun a b =>
      if direction = .row then a.bounds.left ≤ b.bounds.left
      else a.bounds.top ≤ b.bounds.top)
    let gaps := (consecGaps
      (fun a b =>
        if direction = .row then LayoutDistanceHelper.horizontalDistance a b
        else LayoutDistanceHelper.verticalDistance a b) sorted).filter (fun g => 0 < g)
    let gapsSorted := gaps.insertionSort (fun a b => a ≤ b)
    gapsSorted.getD (gapsSorted.length / 2) 0

/-- The positive consecutive axis gaps of `calculateGap`, named so that
the amended claim can speak about them. -/
def positiveGaps (children : List Layer) (direction : Direction) : List ℚ :=
  (consecGaps
    (fun a b =>
      if direction = .row then LayoutDistanceHelper.horizontalDistance a b
      else LayoutDistanceHelper.verticalDistance a b)
    (children.insertionSort (fun a b =>
      if direction = .row then a.bounds.left ≤ b.bounds.left
      else a.bounds.top ≤ b.bounds.top))).filter (fun g => 0 < g)

/-- The amended spec's selector: the element at index `⌊n/2⌋` of the
ascending-sorted list — the median for an odd number of values, the
upper of the two middle values for an even number; 0 for an empty list. -/
def upperMedian (l : List ℚ) : ℚ :=
  (l.insertionSort (fun a b => a ≤ b)).getD (l.length / 2) 0

end ContainerLayoutHelper

/-- An image layer with the given id and bounds (text fields unused). -/
def mkRectLayer (i : ℕ) (b : Bounds) : Layer :=
  ⟨i, "", .image, true, b, none, false⟩

/-- Five boxes in a row whose consecutive horizontal gaps are
`[10, 12, 11, 90]` — the spec's gap-robustness example. -/
def gapExampleChildren : List Layer :=
  [mkRectLayer 0 (Bounds.make 0 0 10 10),
   mkRectLayer 1 (Bounds.make 0 20 30 10),
   mkRectLayer 2 (Bounds.make 0 42 50 10),
   mkRectLayer 3 (Bounds.make 0 61 70 10),
   mkRectLayer 4 (Bounds.make 0 160 170 10)]

/-- Two boxes in a row with a single positive gap of 5. -/
def singleGapChildren : List Layer :=
  [mkRectLayer 0 (Bounds.make 0 0 10 10),
   mkRectLayer 1 (Bounds.make 0 15 25 10)]

/-- C5 counterexample: for adjacent gaps `[10, 12, 11, 90]` the code
returns 12 (the upper of the two middle sorted gaps), not the averaged
median 11.5 the spec claims; and with a single positive gap (which is
"fewer than 2 positive gaps") it returns that gap, not 0. -/
theorem calculateGap_claim_false :
    ContainerLayoutHelper.calculateGap gapExampleChildren Direction.row = 12 ∧
    ContainerLayoutHelper.calculateGap gapExampleChildren Direction.row ≠ 23 / 2 ∧
    ContainerLayoutHelper.calculateGap singleGapChildren Direction.row = 5 := by
  refine ⟨?_, ?_, ?_⟩ <;>
    norm_num [ContainerLayoutHelper.calculateGap, gapExampleChildren, singleGapChildren,
      mkRectLayer, Bounds.make, List.insertionSort, List.orderedInsert,
      ContainerLayoutHelper.consecGaps, LayoutDistanceHelper.horizontalDistance,
      List.filter, List.getD]

/-- C5 amended: `calculateGap` sorts the children along the chosen axis,
collects the positive consecutive axis gaps, and returns the element at
index `⌊n/2⌋` of the ascending-sorted gap list (the median for an odd
count, the upper middle value for an even count), returning 0 when there
is no positive gap; on the example gaps `[10, 12, 11, 90]` this yields
12, and a single positive gap of 5 yields 5. -/
theorem calculateGap_upperMedian :
    (∀ (children : List Layer) (direction : Direction),
      ContainerLayoutHelper.calculateGap children direction =
        if children.length < 2 then 0
        else ContainerLayoutHelper.upperMedian
          (ContainerLayoutHelper.positiveGaps children direction)) ∧
    ContainerLayoutHelper.calculateGap gapExampleChildren Direction.row = 12 ∧
    ContainerLayoutHelper.calculateGap singleGapChildren Direction.row = 5 := by
  refine ⟨fun children direction => ?_, ?_, ?_⟩
  · simp only [ContainerLayoutHelper.calculateGap, ContainerLayoutHelper.upperMedian,
      ContainerLayoutHelper.positiveGaps]
    split
    case isTrue h => rfl
    case isFalse h => rw [List.length_insertionSort]
  all_goals
    norm_num [ContainerLayoutHelper.calculateGap, gapExampleChildren, singleGapChildren,
      mkRectLayer, Bounds.make, List.insertionSort, List.orderedInsert,
      ContainerLayoutHelper.consecGaps, LayoutDistanceHelper.horizontalDistance,
      List.filter, List.getD]

/-- ASCII lowercasing of one character, as JavaScript `toLowerCase` acts
on the ASCII layer names the classifiers compare. -/
def asciiLower (c : Char) : Char :=
  if 'A' ≤ c ∧ c ≤ 'Z' then Char.ofNat (c.toNat + 32) else c

/-- The characters of `s` lowercased. -/
def lowerChars (s : String) : List Char := s.data.map asciiLower

/-- Whether one alternative of an anchored case-insensitive pattern
matches: `alt` (already lowercase) is a prefix of the lowercased name. -/
def altMatches (name : String) (alt : String) : Bool :=
  alt.data.isPrefixOf (lowerChars name)

/-- Model of `/^(alt1|alt2|…)[-_]?/i.test(name)`: some alternative is a
case-insensitive prefix of the name (the trailing optional `[-_]?` can
never make the test fail, so it does not affect `test`). -/
def testAnchoredAlts (alts : List String) (name : String) : Bool :=
  alts.any (altMatches name)

/-- Model of JavaScript `name.includes(key)`: `key` occurs as a
substring (used with already-lowercased names and lowercase keys). -/
def strIncludes (name : String) (key : String) : Bool :=
  name.data.tails.any (fun t => key.data.isPrefixOf t)

/-- The `{layer, score, top}` record built by
`ImageBoxContentClassifier.#scoreLayer`. -/
structure Scored where
  layer : Layer
  score : ℤ
  top : ℚ
deriving DecidableEq, Repr

namespace ImageBoxContentClassifier

/-- Alternatives of `NAME_PATTERNS.heading`. -/
def headingAlts : List String :=
  ["heading", "title", "h1", "h2", "h3", "h4", "h5", "h6", "headline", "header", "name"]

/-- Alternatives of `NAME_PATTERNS.description` (`sub[-_]?title`
expanded into its three concrete forms). -/
def descriptionAlts : List String :=
  ["desc", "description", "text", "paragraph", "body", "content",
   "subtitle", "sub-title", "sub_title", "info"]

/-- Alternatives of `NAME_PATTERNS.image`. -/
def imageAlts : List String :=
  ["img", "image", "photo", "picture", "pic", "icon", "logo", "thumb", "thumbnail"]

/-- The classifier is instantiated with `headingFontSize: 18` (the
constructor default is also 18). -/
def headingFontSize : ℚ := 18

/-- `ImageBoxContentClassifier.#scoreLayer`. The source destructures
`layer.textInfo`, which `classify` has ensured is present on every text
layer it scores; an absent record is modelled by the same neutral
fallback `classify` would have installed. JavaScript
`text.split('\n').length` equals the number of newline characters plus
one. `top` is `layer.bounds?.top ?? 0`, with bounds always present in
this model. -/
def scoreLayer (layer : Layer) : Scored :=
  let ti := layer.textInfo.getD textStyleFallback
  let name := layer.name
  let s1 : ℤ := (if testAnchoredAlts headingAlts name then 50 else 0)
  let s2 : ℤ := s1 - (if testAnchoredAlts descriptionAlts name then 50 else 0)
  let s3 : ℤ := s2 +
    (if ti.fontSize ≥ 24 then 30
     else if ti.fontSize ≥ 20 then 20
     else if ti.fontSize ≥ 18 then 10
     else if ti.fontSize ≤ 14 then -20
     else 0)
  let s4 : ℤ := s3 + (if ti.fontWeight = "bold" then 15 else 0)
  let s5 : ℤ := s4 +
    (if ti.text.length ≤ 50 then 10
     else if ti.text.length > 100 then -15
     else 0)
  let lines := ti.text.data.count '\n' + 1
  let s6 : ℤ := s5 + (if lines = 1 then 10 else if lines > 2 then -10 else 0)
  ⟨layer, s6, layer.bounds.top⟩

/-- `ImageBoxContentClassifier.#classifyTextLayers`: score every layer,
stable-sort descending by score (highest → heading, lowest →
description), and on a tie between the top two scores re-sort by top
coordinate (topmost → heading, bottommost → description). Returns
`(heading, description)`. -/
def classifyTextLayers (textLayers : List Layer) : Option Layer × Option Layer :=
  let scored := textLayers.map scoreLayer
  let sorted := scored.insertionSort (fun a b => b.score ≤ a.score)
  let heading := sorted.head?.map Scored.layer
  let description := sorted.getLast?.map Scored.layer
  match sorted with
  | a :: b :: _ =>
    if a.score = b.score then
      let byTop := sorted.insertionSort (fun x y => x.top ≤ y.top)
      (byTop.head?.map Scored.layer, byTop.getLast?.map Scored.layer)
    else (heading, description)
  | _ => (heading, description)

/-- The `child.textInfo ??= TextStyleExtractor.extract(child.textData)`
write performed by `classify` on each text child: a text child without
`textInfo` gets the neutral extracted record stored into it. -/
def applyTextInfoDefault (c : Layer) : Layer :=
  if c.type = LayerType.text ∧ c.textInfo = none
  then { c with textInfo := some textStyleFallback } else c

/-- `ImageBoxContentClassifier.#pickImage`: first image layer whose name
matches the image pattern, else the first image layer. -/
def pickImage (imageLayers : List Layer) : Option Layer :=
  if imageLayers.isEmpty then none
  else
    match imageLayers.find? (fun l => testAnchoredAlts imageAlts l.name) with
    | some m => some m
    | none => imageLayers.head?

/-- `ImageBoxContentClassifier.#assignSingleText`: a single text
candidate becomes the heading iff its font size reaches the heading
threshold or its name matches the heading pattern. -/
def assignSingleText (layer : Layer) : Option Layer × Option Layer :=
  let ti := layer.textInfo.getD textStyleFallback
  if ti.fontSize ≥ headingFontSize ∨ testAnchoredAlts headingAlts layer.name
  then (some layer, none)
  else (none, some layer)

/-- The `{image, heading, description}` result of `classify`. -/
structure ClassifyResult where
  image : Option Layer
  heading : Option Layer
  description : Option Layer
deriving DecidableEq, Repr

/-- `ImageBoxContentClassifier.classify`. The source loop mutates
its input children in place (`child.textInfo ??= …`); this state change
is modelled by also returning the post-call children list as the second
component. Image layers are `type === 'image' || hasImage`; text layers
are `type === 'text'`. -/
def classify (children : List Layer) : ClassifyResult × List Layer :=
  let updated := children.map applyTextInfoDefault
  let imageLayers := updated.filter (fun c => c.type = LayerType.image ∨ c.hasImage)
  let textLayers := updated.filter (fun c => c.type = LayerType.text)
  let image := pickImage imageLayers
  let hd :=
    match textLayers with
    | [] => (none, none)
    | [t] => assignSingleText t
    | _ => classifyTextLayers textLayers
  (⟨image, hd.1, hd.2⟩, updated)

end ImageBoxContentClassifier

@[simp]
theorem scoreLayer_layer (l : Layer) : (ImageBoxContentClassifier.scoreLayer l).layer = l := rfl

/-- Score bounds: a text layer named "title_x" with font size 30 scores
at least 55 (name +50, size +30, worst-case text penalties −25). -/
theorem scoreLayer_title_lb (l : Layer) (ti : TextInfo) (hn : l.name = "title_x")
    (hti : l.textInfo = some ti) (hf : ti.fontSize = 30) :
    55 ≤ (ImageBoxContentClassifier.scoreLayer l).score := by
  have h1 : testAnchoredAlts ImageBoxContentClassifier.headingAlts "title_x" = true := by decide
  have h2 : testAnchoredAlts ImageBoxContentClassifier.descriptionAlts "title_x" = false := by
    decide
  simp only [ImageBoxContentClassifier.scoreLayer, hn, hti, hf, h1, h2, Option.getD_some]
  norm_num
  split_ifs <;> omega

/-- Score bounds: a text layer named "desc_y" with font size 14 scores
at most −35 (name −50, size −20, best-case text bonuses +35). -/
theorem scoreLayer_desc_ub (l : Layer) (ti : TextInfo) (hn : l.name = "desc_y")
    (hti : l.textInfo = some ti) (hf : ti.fontSize = 14) :
    (ImageBoxContentClassifier.scoreLayer l).score ≤ -35 := by
  have h1 : testAnchoredAlts ImageBoxContentClassifier.headingAlts "desc_y" = false := by decide
  have h2 : testAnchoredAlts ImageBoxContentClassifier.descriptionAlts "desc_y" = true := by
    decide
  simp only [ImageBoxContentClassifier.scoreLayer, hn, hti, hf, h1, h2, Option.getD_some]
  norm_num
  split_ifs <;> omega

/-- C6: with candidates named "title_x" (font size 30) and "desc_y"
(font size 14), the weighted role scoring names "title_x" the heading
and "desc_y" the description, for both input orders, whatever the other
text and bounds fields are. -/
theorem classifyTextLayers_role_scoring (l1 l2 : Layer) (ti1 ti2 : TextInfo)
    (h1n : l1.name = "title_x") (h2n : l2.name = "desc_y")
    (h1t : l1.textInfo = some ti1) (h2t : l2.textInfo = some ti2)
    (h1f : ti1.fontSize = 30) (h2f : ti2.fontSize = 14) :
    ImageBoxContentClassifier.classifyTextLayers [l1, l2] = (some l1, some l2) ∧
    ImageBoxContentClassifier.classifyTextLayers [l2, l1] = (some l1, some l2) := by
  have hub := scoreLayer_desc_ub l2 ti2 h2n h2t h2f
  have hlb := scoreLayer_title_lb l1 ti1 h1n h1t h1f
  have hlt : (ImageBoxContentClassifier.scoreLayer l2).score <
      (ImageBoxContentClassifier.scoreLayer l1).score := by omega
  have hne : ¬ ((ImageBoxContentClassifier.scoreLayer l1).score =
      (ImageBoxContentClassifier.scoreLayer l2).score) := by omega
  constructor <;>
    simp [ImageBoxContentClassifier.classifyTextLayers, List.insertionSort,
      List.orderedInsert, hlt.le, not_le.mpr hlt, hne]

/-- Concrete text candidates of the role-scoring example. -/
def titleLayer : Layer :=
  ⟨10, "title_x", .text, true, Bounds.make 0 0 100 30, some ⟨"Big Title", 30, "normal"⟩, false⟩

/-- Concrete description candidate of the role-scoring example. -/
def descLayer : Layer :=
  ⟨11, "desc_y", .text, true, Bounds.make 40 0 100 60, some ⟨"Some body text", 14, "normal"⟩, false⟩

/-- C6 witness: the role-scoring theorem instantiated at concrete
layers. -/
theorem classifyTextLayers_role_scoring_witness :
    ImageBoxContentClassifier.classifyTextLayers [titleLayer, descLayer] =
      (some titleLayer, some descLayer) ∧
    ImageBoxContentClassifier.classifyTextLayers [descLayer, titleLayer] =
      (some titleLayer, some descLayer) :=
  classifyTextLayers_role_scoring titleLayer descLayer _ _ rfl rfl rfl rfl rfl rfl

/-- A text child whose `textInfo` is absent. -/
def bareTextChild : Layer := ⟨20, "t", .text, true, Bounds.make 0 0 10 10, none, false⟩

/-- C9 counterexample: `ImageBoxContentClassifier.classify` mutates its
input: a text child arriving without `textInfo` leaves the call with a
fallback `textInfo` written into it, so the post-call children differ
from the pre-call children. -/
theorem classify_mutates_input :
    (ImageBoxContentClassifier.classify [bareTextChild]).2 ≠ [bareTextChild] := by
  simp [ImageBoxContentClassifier.classify, ImageBoxContentClassifier.applyTextInfoDefault,
    bareTextChild]

/-- C9 amended: the only input mutation in the modelled conversion code
is `classify` filling in a missing `textInfo` on text children; when
every text child already carries a `textInfo`, `classify` returns its
input children unchanged. -/
theorem classify_preserves_wellformed_input (children : List Layer)
    (h : ∀ c ∈ children, c.type = LayerType.text → c.textInfo ≠ none) :
    (ImageBoxContentClassifier.classify children).2 = children := by
  show children.map ImageBoxContentClassifier.applyTextInfoDefault = children
  have hfix : ∀ c ∈ children, ImageBoxContentClassifier.applyTextInfoDefault c = c := by
    intro c hc
    have hne := h c hc
    unfold ImageBoxContentClassifier.applyTextInfoDefault
    split
    next hcase => exact absurd hcase.2 (hne hcase.1)
    next => rfl
  exact (List.map_congr_left hfix).trans (List.map_id children)

/-- C9 witness: on a well-formed child list (text children have
`textInfo`), `classify` leaves the inputs untouched. -/
theorem classify_preserves_wellformed_input_witness :
    (ImageBoxContentClassifier.classify [titleLayer, descLayer]).2 = [titleLayer, descLayer] := by
  apply classify_preserves_wellformed_input
  intro c hc _
  simp only [List.mem_cons, List.not_mem_nil, or_false] at hc
  rcases hc with rfl | rfl <;> simp [titleLayer, descLayer]

/-- Elementor widget types assigned by the classifiers. -/
inductive WidgetType where
  | container
  | heading
  | textEditor
  | button
  | image
  | imageBox
  | iconBox
  | iconList
deriving DecidableEq, Repr

/-- Composite payloads: `{title, description}` for image-box/icon-box
(their constant-empty `imageUrl`/`iconUrl` fields are omitted), and
`{listItems}` for icon-list. -/
inductive CompositeData where
  | boxData (title description : String)
  | listData (listItems : List String)
deriving DecidableEq, Repr

/-- Result record of `StructureInferenceEngine.inferWidgetType`:
`{widgetType, confidence, layers, compositeData?}`. -/
structure WidgetInference where
  widgetType : WidgetType
  confidence : ℚ
  layers : List Layer
  compositeData : Option CompositeData
deriving DecidableEq, Repr

namespace StructureInferenceEngine

/-- `THRESHOLDS.HEADING_FONT_SIZE`. -/
def HEADING_FONT_SIZE : ℚ := 24

/-- `THRESHOLDS.BUTTON_MAX_WIDTH`. -/
def BUTTON_MAX_WIDTH : ℚ := 300

/-- `THRESHOLDS.BUTTON_MAX_HEIGHT`. -/
def BUTTON_MAX_HEIGHT : ℚ := 80

/-- `THRESHOLDS.BUTTON_ASPECT_MIN`. -/
def BUTTON_ASPECT_MIN : ℚ := 2

/-- `THRESHOLDS.BUTTON_ASPECT_MAX`. -/
def BUTTON_ASPECT_MAX : ℚ := 6

/-- `THRESHOLDS.ICON_MAX_SIZE`. -/
def ICON_MAX_SIZE : ℚ := 100

/-- The `layer.type === 'text' || layer.textInfo` test used throughout
the engine: a layer counts as text if its type is text or it carries a
`textInfo` record. -/
def textLike (l : Layer) : Bool := l.type = LayerType.text ∨ l.textInfo.isSome

/-- `layer.textInfo?.fontSize || 16` (a falsy 0 also falls back). -/
def fontSizeOf (l : Layer) : ℚ :=
  match l.textInfo with
  | some ti => if ti.fontSize = 0 then 16 else ti.fontSize
  | none => 16

/-- `layer.textInfo?.text || layer.name` (a falsy empty string falls
back to the name). -/
def textOf (l : Layer) : String :=
  match l.textInfo with
  | some ti => if ti.text = "" then l.name else ti.text
  | none => l.name

/-- The `layer.type === 'image' || layer.type === 'shape' || layer.hasImage`
test of the image/shape branch. -/
def imageLike (l : Layer) : Bool :=
  l.type = LayerType.image ∨ l.type = LayerType.shape ∨ l.hasImage

/-- `StructureInferenceEngine.isButtonShape`: nonzero width and height,
width ≤ 300, height ≤ 80 and aspect between 2 and 6. -/
def isButtonShape (layer : Layer) : Bool :=
  let width := layer.bounds.width
  let height := layer.bounds.height
  if width = 0 ∨ height = 0 then false
  else
    let aspect := width / height
    width ≤ BUTTON_MAX_WIDTH ∧ height ≤ BUTTON_MAX_HEIGHT ∧
      BUTTON_ASPECT_MIN ≤ aspect ∧ aspect ≤ BUTTON_ASPECT_MAX

/-- `StructureInferenceEngine.classifySingleLayer`. -/
def classifySingleLayer (layer : Layer) : WidgetInference :=
  if textLike layer then
    if fontSizeOf layer ≥ HEADING_FONT_SIZE then ⟨.heading, 9/10, [layer], none⟩
    else ⟨.textEditor, 9/10, [layer], none⟩
  else if isButtonShape layer then ⟨.button, 7/10, [layer], none⟩
  else if imageLike layer then ⟨.image, 17/20, [layer], none⟩
  else ⟨.container, 3/10, [layer], none⟩

/-- The tally record built by `analyzeComposition`. -/
structure Composition where
  hasImage : Bool
  hasSmallImage : Bool
  hasHeading : Bool
  hasText : Bool
  hasButtonShape : Bool
  textCount : ℕ
  imageCount : ℕ
  texts : List String
  headings : List Layer
  images : List Layer
deriving DecidableEq, Repr

/-- The all-empty initial composition record. -/
def emptyComposition : Composition := ⟨false, false, false, false, false, 0, 0, [], [], []⟩

/-- One iteration of `analyzeComposition`'s loop: text layers update the
heading/body tallies and `continue`; image/shape layers update the
image tallies (small = both dimensions ≤ 100, else regular) and the
button-shape flag. -/
def compStep (comp : Composition) (layer : Layer) : Composition :=
  if textLike layer then
    if fontSizeOf layer ≥ HEADING_FONT_SIZE then
      { comp with hasHeading := true, headings := comp.headings ++ [layer],
                  textCount := comp.textCount + 1 }
    else
      { comp with hasText := true, texts := comp.texts ++ [textOf layer],
                  textCount := comp.textCount + 1 }
  else if imageLike layer then
    let comp1 := { comp with imageCount := comp.imageCount + 1,
                             images := comp.images ++ [layer] }
    let comp2 :=
      if layer.bounds.width ≤ ICON_MAX_SIZE ∧ layer.bounds.height ≤ ICON_MAX_SIZE
      then { comp1 with hasSmallImage := true }
      else { comp1 with hasImage := true }
    if isButtonShape layer then { comp2 with hasButtonShape := true } else comp2
  else comp

/-- `StructureInferenceEngine.analyzeComposition`. -/
def analyzeComposition (cluster : List Layer) : Composition :=
  cluster.foldl compStep emptyComposition

/-- `StructureInferenceEngine.extractImageBoxData`: title = first
heading's text (name fallback), description = first body text. -/
def extractImageBoxData (comp : Composition) : CompositeData :=
  let title := match comp.headings with
    | [] => ""
    | h :: _ => textOf h
  let description := match comp.texts with
    | [] => ""
    | t :: _ => t
  .boxData title description

/-- `StructureInferenceEngine.extractIconBoxData` (same extraction as
the image-box variant apart from the omitted empty url field). -/
def extractIconBoxData (comp : Composition) : CompositeData :=
  let title := match comp.headings with
    | [] => ""
    | h :: _ => textOf h
  let description := match comp.texts with
    | [] => ""
    | t :: _ => t
  .boxData title description

/-- `StructureInferenceEngine.inferWidgetType`: empty → container 0;
single layer → `classifySingleLayer`; otherwise the first-match
composite decision chain (image-box, icon-box, button, icon-list,
container). -/
def inferWidgetType (cluster : List Layer) : WidgetInference :=
  match cluster with
  | [] => ⟨.container, 0, [], none⟩
  | [l] => classifySingleLayer l
  | _ =>
    let comp := analyzeComposition cluster
    if comp.hasImage ∧ comp.hasHeading then
      ⟨.imageBox, 17/20, cluster, some (extractImageBoxData comp)⟩
    else if comp.hasSmallImage ∧ comp.hasHeading ∧ comp.hasText then
      ⟨.iconBox, 4/5, cluster, some (extractIconBoxData comp)⟩
    else if comp.hasButtonShape ∧ comp.textCount = 1 then
      ⟨.button, 3/4, cluster, none⟩
    else if comp.textCount ≥ 3 ∧ ¬comp.hasImage then
      ⟨.iconList, 7/10, cluster, some (.listData comp.texts)⟩
    else
      ⟨.container, 1/2, cluster, none⟩

/-- A layer counted by `analyzeComposition` as a regular
(non-icon-sized) image: it reaches the image branch and is not small. -/
def IsRegularImage (l : Layer) : Prop :=
  textLike l = false ∧ imageLike l = true ∧
    ¬ (l.bounds.width ≤ ICON_MAX_SIZE ∧ l.bounds.height ≤ ICON_MAX_SIZE)

instance (l : Layer) : Decidable (IsRegularImage l) := by
  unfold IsRegularImage; infer_instance

/-- A layer counted by `analyzeComposition` as a heading: text-like with
(defaulted) font size ≥ 24. -/
def IsHeadingLayer (l : Layer) : Prop :=
  textLike l = true ∧ fontSizeOf l ≥ HEADING_FONT_SIZE

instance (l : Layer) : Decidable (IsHeadingLayer l) := by
  unfold IsHeadingLayer; infer_instance

/-- One loop step can only switch `hasImage` on when the layer is a
regular (non-small) image. -/
theorem compStep_hasImage (comp : Composition) (l : Layer) :
    ((compStep comp l).hasImage = true ↔ comp.hasImage = true ∨ IsRegularImage l) := by
  simp only [compStep, IsRegularImage]
  split_ifs with h1 h2 h3 h4 h5 h6 <;> simp_all

/-- One loop step can only switch `hasHeading` on when the layer is a
heading. -/
theorem compStep_hasHeading (comp : Composition) (l : Layer) :
    ((compStep comp l).hasHeading = true ↔ comp.hasHeading = true ∨ IsHeadingLayer l) := by
  simp only [compStep, IsHeadingLayer]
  split_ifs with h1 h2 h3 h4 h5 h6 <;> simp_all

/-- `analyzeComposition` reports a regular image iff the cluster holds
one. -/
theorem analyzeComposition_hasImage (c : List Layer) :
    ((analyzeComposition c).hasImage = true ↔ ∃ l ∈ c, IsRegularImage l) := by
  suffices h : ∀ acc : Composition,
      ((c.foldl compStep acc).hasImage = true ↔
        acc.hasImage = true ∨ ∃ l ∈ c, IsRegularImage l) by
    simpa [analyzeComposition, emptyComposition] using h emptyComposition
  induction c with
  | nil => simp
  | cons x xs ih =>
    intro acc
    rw [List.foldl_cons, ih (compStep acc x)]
    rw [compStep_hasImage]
    simp only [List.mem_cons]
    constructor
    · rintro ((h | h) | ⟨l, hl, hr⟩)
      · exact Or.inl h
      · exact Or.inr ⟨x, Or.inl rfl, h⟩
      · exact Or.inr ⟨l, Or.inr hl, hr⟩
    · rintro (h | ⟨l, (rfl | hl), hr⟩)
      · exact Or.inl (Or.inl h)
      · exact Or.inl (Or.inr hr)
      · exact Or.inr ⟨l, hl, hr⟩

/-- `analyzeComposition` reports a heading iff the cluster holds one. -/
theorem analyzeComposition_hasHeading (c : List Layer) :
    ((analyzeComposition c).hasHeading = true ↔ ∃ l ∈ c, IsHeadingLayer l) := by
  suffices h : ∀ acc : Composition,
      ((c.foldl compStep acc).hasHeading = true ↔
        acc.hasHeading = true ∨ ∃ l ∈ c, IsHeadingLayer l) by
    simpa [analyzeComposition, emptyComposition] using h emptyComposition
  induction c with
  | nil => simp
  | cons x xs ih =>
    intro acc
    rw [List.foldl_cons, ih (compStep acc x)]
    rw [compStep_hasHeading]
    simp only [List.mem_cons]
    constructor
    · rintro ((h | h) | ⟨l, hl, hr⟩)
      · exact Or.inl h
      · exact Or.inr ⟨x, Or.inl rfl, h⟩
      · exact Or.inr ⟨l, Or.inr hl, hr⟩
    · rintro (h | ⟨l, (rfl | hl), hr⟩)
      · exact Or.inl (Or.inl h)
      · exact Or.inl (Or.inr hr)
      · exact Or.inr ⟨l, hl, hr⟩

end StructureInferenceEngine

/-- A 200×150 image layer (regular, not icon-sized). -/
def exRegularImage : Layer := ⟨30, "im", .image, true, Bounds.make 0 0 200 150, none, false⟩

/-- A text layer with font size 28 (a heading). -/
def exHeading : Layer :=
  ⟨31, "hd", .text, true, Bounds.make 160 0 300 200, some ⟨"Title", 28, "normal"⟩, false⟩

/-- A body text layer (font size 14). -/
def exBody1 : Layer :=
  ⟨32, "b1", .text, true, Bounds.make 210 0 300 230, some ⟨"alpha", 14, "normal"⟩, false⟩

/-- Another body text layer (font size 14). -/
def exBody2 : Layer :=
  ⟨33, "b2", .text, true, Bounds.make 240 0 300 260, some ⟨"beta", 14, "normal"⟩, false⟩

/-- C4: for any multi-layer cluster holding a regular image and a
heading, the first branch of `inferWidgetType`'s decision chain fires:
image-box with confidence 0.85; and on the spec's concrete examples,
`[image, heading]` yields image-box 0.85 while
`[heading(28), text, text]` with no image yields icon-list 0.7 (the
heading counts toward the text total of 3). -/
theorem inferWidgetType_decision_order (cluster : List Layer) (hlen : 2 ≤ cluster.length)
    (hi : ∃ l ∈ cluster, StructureInferenceEngine.IsRegularImage l)
    (hh : ∃ l ∈ cluster, StructureInferenceEngine.IsHeadingLayer l) :
    ((StructureInferenceEngine.inferWidgetType cluster).widgetType = WidgetType.imageBox ∧
      (StructureInferenceEngine.inferWidgetType cluster).confidence = 17/20) ∧
    (StructureInferenceEngine.inferWidgetType [exRegularImage, exHeading]).widgetType =
      WidgetType.imageBox ∧
    (StructureInferenceEngine.inferWidgetType [exRegularImage, exHeading]).confidence = 17/20 ∧
    (StructureInferenceEngine.inferWidgetType [exHeading, exBody1, exBody2]).widgetType =
      WidgetType.iconList ∧
    (StructureInferenceEngine.inferWidgetType [exHeading, exBody1, exBody2]).confidence = 7/10 := by
  refine ⟨?_, ?_, ?_, ?_, ?_⟩
  · rcases cluster with _ | ⟨a, _ | ⟨b, rest⟩⟩
    · simp at hlen
    · simp at hlen
    · have himg := (StructureInferenceEngine.analyzeComposition_hasImage (a :: b :: rest)).mpr hi
      have hhead := (StructureInferenceEngine.analyzeComposition_hasHeading (a :: b :: rest)).mpr hh
      simp only [StructureInferenceEngine.inferWidgetType]
      rw [if_pos ⟨himg, hhead⟩]
      exact ⟨rfl, rfl⟩
  all_goals try simp [StructureInferenceEngine.inferWidgetType,
      StructureInferenceEngine.analyzeComposition, StructureInferenceEngine.compStep,
      StructureInferenceEngine.emptyComposition, StructureInferenceEngine.textLike,
      StructureInferenceEngine.imageLike, StructureInferenceEngine.fontSizeOf,
      StructureInferenceEngine.textOf, StructureInferenceEngine.isButtonShape,
      StructureInferenceEngine.ICON_MAX_SIZE, StructureInferenceEngine.HEADING_FONT_SIZE,
      StructureInferenceEngine.BUTTON_MAX_WIDTH, StructureInferenceEngine.BUTTON_MAX_HEIGHT,
      StructureInferenceEngine.BUTTON_ASPECT_MIN, StructureInferenceEngine.BUTTON_ASPECT_MAX,
      StructureInferenceEngine.extractImageBoxData, StructureInferenceEngine.extractIconBoxData,
      exRegularImage, exHeading, exBody1, exBody2, Bounds.make]
  all_goals try norm_num [StructureInferenceEngine.inferWidgetType,
      StructureInferenceEngine.analyzeComposition, StructureInferenceEngine.compStep,
      StructureInferenceEngine.emptyComposition, StructureInferenceEngine.textLike,
      StructureInferenceEngine.imageLike, StructureInferenceEngine.fontSizeOf,
      StructureInferenceEngine.textOf, StructureInferenceEngine.isButtonShape,
      StructureInferenceEngine.ICON_MAX_SIZE, StructureInferenceEngine.HEADING_FONT_SIZE,
      StructureInferenceEngine.BUTTON_MAX_WIDTH, StructureInferenceEngine.BUTTON_MAX_HEIGHT,
      StructureInferenceEngine.BUTTON_ASPECT_MIN, StructureInferenceEngine.BUTTON_ASPECT_MAX,
      StructureInferenceEngine.extractImageBoxData, StructureInferenceEngine.extractIconBoxData,
      exRegularImage, exHeading, exBody1, exBody2, Bounds.make]

/-- C4 witness: the decision-order theorem applied to the concrete
`[image, heading]` cluster. -/
theorem inferWidgetType_decision_order_witness :
    (StructureInferenceEngine.inferWidgetType [exRegularImage, exHeading]).widgetType =
      WidgetType.imageBox ∧
    (StructureInferenceEngine.inferWidgetType [exRegularImage, exHeading]).confidence = 17/20 :=
  (inferWidgetType_decision_order [exRegularImage, exHeading] (by norm_num)
    ⟨exRegularImage, by norm_num,
      ⟨by simp [StructureInferenceEngine.textLike, exRegularImage],
       by simp [StructureInferenceEngine.imageLike, exRegularImage],
       by norm_num [exRegularImage, Bounds.make, StructureInferenceEngine.ICON_MAX_SIZE]⟩⟩
    ⟨exHeading, by norm_num,
      ⟨by simp [StructureInferenceEngine.textLike, exHeading],
       by norm_num [StructureInferenceEngine.fontSizeOf,
         StructureInferenceEngine.HEADING_FONT_SIZE, exHeading]⟩⟩).1

/-- Whether `needle` occurs as a substring of the character list `hay`
(JavaScript `hay.includes(needle)` on already-lowercased names). -/
def includesChars (hay : List Char) (needle : String) : Bool :=
  hay.tails.any (fun t => needle.data.isPrefixOf t)

/-- Input layer tree of the name/type classifier (`layerClassifier.js`):
name, type, optional textInfo, bounds, children. -/
inductive PLayer : Type where
  | mk (name : String) (type : LayerType) (textInfo : Option TextInfo)
       (bounds : Bounds) (children : List PLayer)

/-- Layer name. -/
def PLayer.name : PLayer → String
  | .mk n _ _ _ _ => n

/-- Layer kind. -/
def PLayer.type : PLayer → LayerType
  | .mk _ t _ _ _ => t

/-- Optional text style record. -/
def PLayer.textInfo : PLayer → Option TextInfo
  | .mk _ _ ti _ _ => ti

/-- Bounding box. -/
def PLayer.bounds : PLayer → Bounds
  | .mk _ _ _ b _ => b

/-- Child layers. -/
def PLayer.children : PLayer → List PLayer
  | .mk _ _ _ _ cs => cs

/-- Output of `classifyLayer`: the input fields plus `widgetType`,
`isComposite` and `badgeClass`. When the classifier recursed, `children`
holds classified children (`Sum.inr`); when it did not (no children, or
a composite-by-name widget type), the original unclassified children are
kept (`Sum.inl`), as the JavaScript spread copy does. -/
inductive CLayer : Type where
  | mk (name : String) (type : LayerType) (textInfo : Option TextInfo)
       (bounds : Bounds) (widgetType : WidgetType) (isComposite : Bool)
       (badgeClass : String) (children : List PLayer ⊕ List CLayer)

/-- Assigned widget type. -/
def CLayer.widgetType : CLayer → WidgetType
  | .mk _ _ _ _ wt _ _ _ => wt

/-- Composite flag. -/
def CLayer.isComposite : CLayer → Bool
  | .mk _ _ _ _ _ ic _ _ => ic

namespace LayerClassifier

/-- `COMPOSITE_WIDGETS`. -/
def COMPOSITE_WIDGETS : List WidgetType := [.imageBox, .iconBox, .iconList]

/-- `PATTERNS.heading` alternatives. -/
def headingAlts : List String :=
  ["heading", "title", "h1", "h2", "h3", "h4", "h5", "h6", "headline", "header"]

/-- `PATTERNS.button` alternatives. -/
def buttonAlts : List String := ["btn", "button", "cta", "action"]

/-- `PATTERNS.image` alternatives. -/
def imageAlts : List String := ["img", "image", "photo", "picture", "pic", "banner", "hero"]

/-- `PATTERNS.text` alternatives. -/
def textAlts : List String := ["text", "paragraph", "desc", "description", "body", "content", "p"]

/-- `PATTERNS.iconBox` alternatives (`icon[-_]?box`, `feature[-_]?box`,
`service` expanded). -/
def iconBoxAlts : List String :=
  ["iconbox", "icon-box", "icon_box", "featurebox", "feature-box", "feature_box", "service"]

/-- `PATTERNS.imageBox` alternatives (`image[-_]?box`, `blog[-_]?post`
expanded). -/
def imageBoxAlts : List String :=
  ["imagebox", "image-box", "image_box", "card", "product", "item",
   "blogpost", "blog-post", "blog_post"]

/-- `PATTERNS.iconList` alternatives (`icon[-_]?list` expanded). -/
def iconListAlts : List String :=
  ["iconlist", "icon-list", "icon_list", "list", "menu", "nav", "features", "bullets"]

/-- `PATTERNS.container` alternatives. -/
def containerAlts : List String :=
  ["container", "section", "row", "wrapper", "box", "group", "block"]

/-- `BADGE_CLASSES` (total map, so the `|| 'container'` fallback never
fires). -/
def BADGE_CLASSES : WidgetType → String
  | .container => "container"
  | .heading => "heading"
  | .textEditor => "text"
  | .button => "button"
  | .image => "image"
  | .imageBox => "image-box"
  | .iconBox => "icon-box"
  | .iconList => "icon-list"

/-- `isHeadingName`: one of the heading keywords occurs in the
(lowercased) name. -/
def isHeadingName (nameChars : List Char) : Bool :=
  ["title", "heading", "header", "headline", "name"].any (includesChars nameChars)

/-- `layerClassifier.js`'s own `isButtonShape`: a button keyword in the
name, or nonzero dimensions with aspect ratio between 2 and 6 and height
at most 80 (`width && height` is the JavaScript truthiness test). -/
def isButtonShape (l : PLayer) (nameChars : List Char) : Bool :=
  if ["btn", "button", "cta", "click", "submit", "action"].any (includesChars nameChars) then
    true
  else
    let width := l.bounds.width
    let height := l.bounds.height
    if ¬ (width = 0) ∧ ¬ (height = 0) then
      let aspect := width / height
      if 2 ≤ aspect ∧ aspect ≤ 6 ∧ height ≤ 80 then true else false
    else false

/-- `layer.textInfo?.fontSize || 16` in `determineWidgetType`. -/
def pFontSize (l : PLayer) : ℚ :=
  match l.textInfo with
  | some ti => if ti.fontSize = 0 then 16 else ti.fontSize
  | none => 16

/-- `determineWidgetType`: name patterns first (button, heading,
icon-box, image-box, icon-list, text, image, container), then inference
from the layer type. -/
def determineWidgetType (l : PLayer) : WidgetType :=
  let name := l.name
  if testAnchoredAlts buttonAlts name then .button
  else if testAnchoredAlts headingAlts name then .heading
  else if testAnchoredAlts iconBoxAlts name then .iconBox
  else if testAnchoredAlts imageBoxAlts name then .imageBox
  else if testAnchoredAlts iconListAlts name then .iconList
  else if testAnchoredAlts textAlts name then .textEditor
  else if testAnchoredAlts imageAlts name then .image
  else if testAnchoredAlts containerAlts name then .container
  else if l.type = LayerType.group then .container
  else if l.type = LayerType.text then
    (if pFontSize l ≥ 24 ∨ isHeadingName (lowerChars name) then .heading else .textEditor)
  else if l.type = LayerType.image ∨ l.type = LayerType.shape then
    (if isButtonShape l (lowerChars name) then .button else .image)
  else .container

/-- The widget types whose presence among the children suppresses
composite collapse (the array tested by `hasComplexWidgets`). -/
def complexTypes : List WidgetType := [.imageBox, .iconBox, .iconList, .container, .button]

/-- `detectCompositeWidget` over the classified children. -/
def detectCompositeWidget (children : List CLayer) : Option WidgetType :=
  if children.length = 0 then none
  else
    let types := children.map CLayer.widgetType
    let hasImage := types.contains WidgetType.image
    let hasHeading := types.contains WidgetType.heading
    let hasText := types.contains WidgetType.textEditor
    let hasComplexWidgets := types.any (fun t => complexTypes.contains t)
    if hasComplexWidgets then none
    else if hasImage ∧ hasHeading then some .imageBox
    else if (types.filter (fun t => t = WidgetType.textEditor ∨ t = WidgetType.heading)).length ≥ 3
        ∧ ¬ hasImage then some .iconList
    else if hasHeading ∧ hasText ∧ ¬ hasImage then some .iconBox
    else none

mutual

/-- `classifyLayer`: copy the layer, assign `determineWidgetType`,
recurse into children unless the type is already a composite widget, and
upgrade a `container` to the composite type detected from its classified
children. -/
def classifyLayer : PLayer → CLayer
  | .mk name type ti bounds children =>
    let wt := determineWidgetType (.mk name type ti bounds children)
    if children.length ≠ 0 ∧ wt ∉ COMPOSITE_WIDGETS then
      let children2 := classifyChildren children
      match detectCompositeWidget children2 with
      | some ct =>
        if wt = .container then
          .mk name type ti bounds ct true (BADGE_CLASSES ct) (.inr children2)
        else
          .mk name type ti bounds wt false (BADGE_CLASSES wt) (.inr children2)
      | none => .mk name type ti bounds wt false (BADGE_CLASSES wt) (.inr children2)
    else
      .mk name type ti bounds wt false (BADGE_CLASSES wt) (.inl children)

/-- `layer.children.map(child => classifyLayer(child))`. -/
def classifyChildren : List PLayer → List CLayer
  | [] => []
  | c :: cs => classifyLayer c :: classifyChildren cs

end

end LayerClassifier

/-- `classifyChildren` is the classification map over the child list. -/
theorem classifyChildren_eq_map (cs : List PLayer) :
    LayerClassifier.classifyChildren cs = cs.map LayerClassifier.classifyLayer := by
  induction cs with
  | nil => rfl
  | cons c cs ih => simp [LayerClassifier.classifyChildren, ih]

/-- A classified child of a suppressing type forces
`detectCompositeWidget` to return `none`. -/
theorem detectCompositeWidget_complex_none (children : List CLayer)
    (h : ∃ cl ∈ children, cl.widgetType ∈ LayerClassifier.complexTypes) :
    LayerClassifier.detectCompositeWidget children = none := by
  obtain ⟨cl, hmem, htype⟩ := h
  have hne : ¬ children.length = 0 := by
    cases children with
    | nil => simp at hmem
    | cons a as => simp
  have hc : (children.map CLayer.widgetType).any
      (fun t => LayerClassifier.complexTypes.contains t) = true := by
    rw [List.any_eq_true]
    refine ⟨cl.widgetType, List.mem_map_of_mem _ hmem, ?_⟩
    simpa using htype
  unfold LayerClassifier.detectCompositeWidget
  rw [if_neg hne]
  simp only [hc, if_true]

/-- C3: a parent whose own name/type classification is `container` and
whose children include one classified as image-box, icon-box, icon-list,
container, or button is never collapsed into a composite widget: it
keeps widget type `container`. -/
theorem classifyLayer_composite_suppression (l : PLayer)
    (h1 : LayerClassifier.determineWidgetType l = WidgetType.container)
    (h2 : l.children ≠ [])
    (h3 : ∃ c ∈ l.children,
      (LayerClassifier.classifyLayer c).widgetType ∈ LayerClassifier.complexTypes) :
    (LayerClassifier.classifyLayer l).widgetType = WidgetType.container := by
  obtain ⟨name, type, ti, bounds, children⟩ := l
  simp only [PLayer.children] at h2 h3
  have hlen : ¬ children.length = 0 := fun h => h2 (List.length_eq_zero.mp h)
  have hdet : LayerClassifier.detectCompositeWidget
      (LayerClassifier.classifyChildren children) = none := by
    rw [classifyChildren_eq_map]
    apply detectCompositeWidget_complex_none
    obtain ⟨c, hmem, htype⟩ := h3
    exact ⟨LayerClassifier.classifyLayer c, List.mem_map_of_mem _ hmem, htype⟩
  rw [LayerClassifier.classifyLayer]
  simp only [h1, hdet]
  rw [if_pos ⟨hlen, by decide⟩]
  rfl

/-- A child group named "card1": the image-box name pattern matches, so
it classifies as `image-box`. -/
def cardChild : PLayer := .mk "card1" .group none (Bounds.make 0 0 100 100) []

/-- A heading child (text, font size 30, pattern-free name). -/
def headChild : PLayer := .mk "zzt" .text (some ⟨"T", 30, "normal"⟩) (Bounds.make 0 0 50 20) []

/-- A parent group with a pattern-free name holding an image-box child
and a heading child. -/
def suppressionParent : PLayer := .mk "zz" .group none (Bounds.make 0 0 300 300) [cardChild, headChild]

/-- C3 witness: the suppression theorem applied to the concrete
`[image-box-child, heading-child]` group — it stays `container` and does
not become `image-box`. -/
theorem classifyLayer_composite_suppression_witness :
    (LayerClassifier.classifyLayer suppressionParent).widgetType = WidgetType.container ∧
    ¬ (LayerClassifier.classifyLayer suppressionParent).widgetType = WidgetType.imageBox := by
  have hdet : LayerClassifier.determineWidgetType suppressionParent = WidgetType.container := by
    decide
  have hcard : (LayerClassifier.classifyLayer cardChild).widgetType = WidgetType.imageBox := by
    have e1 : LayerClassifier.determineWidgetType cardChild = WidgetType.imageBox := by decide
    simp only [cardChild] at e1 ⊢
    rw [LayerClassifier.classifyLayer]
    simp [e1, CLayer.widgetType]
  have h := classifyLayer_composite_suppression suppressionParent hdet
    (by simp [suppressionParent, PLayer.children])
    ⟨cardChild, by simp [suppressionParent, PLayer.children],
      by rw [hcard]; decide⟩
  exact ⟨h, by rw [h]; decide⟩

namespace SpatialClusteringHelper

/-- `SpatialClusteringHelper.DEFAULT_THRESHOLD`. -/
def DEFAULT_THRESHOLD : ℚ := 20

/-- The horizontal gap term of `getMinDistance`:
`Math.max(0, max(left) - min(right))`. -/
def hGap (a b : Bounds) : ℚ := max 0 (max a.left b.left - min a.right b.right)

/-- The vertical gap term of `getMinDistance`:
`Math.max(0, max(top) - min(bottom))`. -/
def vGap (a b : Bounds) : ℚ := max 0 (max a.top b.top - min a.bottom b.bottom)

/-- `getMinDistance(a, b) <= t`, i.e.
`Math.sqrt(hGap² + vGap²) <= t`. Both gaps are nonnegative, so the
square root comparison holds exactly when `0 ≤ t` and
`hGap² + vGap² ≤ t²`; this decidable form avoids irrational values and
loses no information (`√` is monotone). -/
def getMinDistanceLe (a b : Bounds) (t : ℚ) : Bool :=
  0 ≤ t ∧ hGap a b ^ 2 + vGap a b ^ 2 ≤ t ^ 2

/-- `findNeighbors(layer, allLayers, threshold)`: every other-id layer
within threshold distance. -/
def findNeighbors (layer : Layer) (allLayers : List Layer) (t : ℚ) : List Layer :=
  allLayers.filter (fun other =>
    ¬ (other.id = layer.id) ∧ getMinDistanceLe layer.bounds other.bounds t)

/-- The inner `for (const neighbor of neighbors)` loop of
`expandCluster`: unvisited neighbors are marked visited, appended to the
cluster and enqueued, in order. Returns the updated
`(visited, cluster, queue)`. -/
def visitNeighbors : List Layer → List ℕ → List Layer → List Layer →
    List ℕ × List Layer × List Layer
  | [], visited, cluster, queue => (visited, cluster, queue)
  | n :: rest, visited, cluster, queue =>
    if n.id ∈ visited then visitNeighbors rest visited cluster queue
    else visitNeighbors rest (n.id :: visited) (cluster ++ [n]) (queue ++ [n])

/-- Number of distinct layer ids not yet visited — the primary
termination measure of the breadth-first expansion. -/
def unvisitedCount (allLayers : List Layer) (visited : List ℕ) : ℕ :=
  ((allLayers.map Layer.id).dedup.filter (fun i => i ∉ visited)).length

/-- Every step of `visitNeighbors` is described by the sublist `fresh`
of the neighbors that were unvisited on arrival: they get marked (ids
prepended in reverse), appended to the cluster and enqueued; afterwards
every neighbor id is visited. -/
theorem visitNeighbors_spec (ns : List Layer) (visited : List ℕ) (cluster queue : List Layer) :
    ∃ fresh : List Layer,
      visitNeighbors ns visited cluster queue =
        ((fresh.map Layer.id).reverse ++ visited, cluster ++ fresh, queue ++ fresh) ∧
      (∀ x ∈ fresh, x ∈ ns) ∧
      (∀ x ∈ fresh, x.id ∉ visited) ∧
      (fresh.map Layer.id).Nodup ∧
      (∀ x ∈ ns, x.id ∈ (fresh.map Layer.id).reverse ++ visited) := by
  induction ns generalizing visited cluster queue with
  | nil =>
    refine ⟨[], ?_, ?_, ?_, ?_, ?_⟩ <;> simp [visitNeighbors]
  | cons n rest ih =>
    by_cases h : n.id ∈ visited
    · obtain ⟨fresh, heq, hsub, hfresh, hnd, hcov⟩ := ih visited cluster queue
      refine ⟨fresh, ?_, ?_, hfresh, hnd, ?_⟩
      · rw [visitNeighbors, if_pos h]; exact heq
      · exact fun x hx => List.mem_cons_of_mem _ (hsub x hx)
      · intro x hx
        rcases List.mem_cons.mp hx with rfl | hx'
        · simp [h]
        · exact hcov x hx'
    · obtain ⟨fresh, heq, hsub, hfresh, hnd, hcov⟩ :=
        ih (n.id :: visited) (cluster ++ [n]) (queue ++ [n])
      have hshape : ((n :: fresh).map Layer.id).reverse ++ visited =
          (fresh.map Layer.id).reverse ++ (n.id :: visited) := by
        simp
      refine ⟨n :: fresh, ?_, ?_, ?_, ?_, ?_⟩
      · rw [visitNeighbors, if_neg h, heq, hshape]
        simp
      · intro x hx
        rcases List.mem_cons.mp hx with rfl | hx'
        · exact List.mem_cons_self _ _
        · exact List.mem_cons_of_mem _ (hsub x hx')
      · intro x hx
        rcases List.mem_cons.mp hx with rfl | hx'
        · exact h
        · exact fun hv => hfresh x hx' (List.mem_cons_of_mem _ hv)
      · refine List.nodup_cons.mpr ⟨?_, hnd⟩
        intro hmem
        obtain ⟨x, hx, hxid⟩ := List.mem_map.mp hmem
        exact hfresh x hx (hxid ▸ List.mem_cons_self _ _)
      · intro x hx
        rw [hshape]
        rcases List.mem_cons.mp hx with rfl | hx'
        · simp
        · exact hcov x hx'

/-- Marking fresh ids coming from `allLayers` strictly shrinks the
unvisited count. -/
theorem unvisitedCount_lt (allLayers : List Layer) (visited : List ℕ)
    (fresh : List Layer) (hne : fresh ≠ [])
    (hsub : ∀ x ∈ fresh, x ∈ allLayers)
    (hfresh : ∀ x ∈ fresh, x.id ∉ visited) :
    unvisitedCount allLayers ((fresh.map Layer.id).reverse ++ visited) <
      unvisitedCount allLayers visited := by
  classical
  obtain ⟨f0, fs, rfl⟩ : ∃ f0 fs, fresh = f0 :: fs := by
    cases fresh with
    | nil => exact absurd rfl hne
    | cons a as => exact ⟨a, as, rfl⟩
  unfold unvisitedCount
  have hmono : ((allLayers.map Layer.id).dedup.filter
        (fun i => i ∉ ((f0 :: fs).map Layer.id).reverse ++ visited)).Sublist
      ((allLayers.map Layer.id).dedup.filter (fun i => i ∉ visited)) := by
    apply List.monotone_filter_right
    intro i hi
    simp only [decide_eq_true_eq] at hi ⊢
    intro hv
    exact hi (List.mem_append_right _ hv)
  have hlen := hmono.length_le
  rcases lt_or_eq_of_le hlen with hlt | heq
  · exact hlt
  · exfalso
    have hEq := hmono.eq_of_length heq
    have hin : f0.id ∈ (allLayers.map Layer.id).dedup.filter (fun i => i ∉ visited) := by
      rw [List.mem_filter]
      refine ⟨List.mem_dedup.mpr (List.mem_map_of_mem _ (hsub f0 (List.mem_cons_self _ _))), ?_⟩
      simpa using hfresh f0 (List.mem_cons_self _ _)
    rw [← hEq, List.mem_filter] at hin
    have := hin.2
    simp at this

/-- The `while (queue.length > 0)` loop of `expandCluster`: dequeue,
collect the current layer's neighbors, absorb the unvisited ones, and
continue. Returns the final `(cluster, visited)`. -/
def expandLoop (allLayers : List Layer) (t : ℚ) (queue : List Layer) (visited : List ℕ)
    (cluster : List Layer) : List Layer × List ℕ :=
  match queue with
  | [] => (cluster, visited)
  | current :: rest =>
    match h : visitNeighbors (findNeighbors current allLayers t) visited cluster rest with
    | (v2, c2, q2) => expandLoop allLayers t q2 v2 c2
termination_by (unvisitedCount allLayers visited, queue.length)
decreasing_by
  rename_i current rest
  obtain ⟨fresh, heq, hsub, hfresh, hnd, hcov⟩ :=
    visitNeighbors_spec (findNeighbors current allLayers t) visited cluster rest
  rw [heq] at h
  obtain ⟨hv, hc, hq⟩ : v2 = (fresh.map Layer.id).reverse ++ visited ∧
      c2 = cluster ++ fresh ∧ q2 = rest ++ fresh := by
    have h1 := congrArg Prod.fst h
    have h2 := congrArg (fun p => p.2.1) h
    have h3 := congrArg (fun p => p.2.2) h
    exact ⟨h1.symm, h2.symm, h3.symm⟩
  subst hv hc hq
  cases fresh with
  | nil =>
    apply Prod.Lex.right
    simp
  | cons f0 fs =>
    apply Prod.Lex.left
    apply unvisitedCount_lt allLayers visited (f0 :: fs) (by simp)
    · intro x hx
      exact List.mem_of_mem_filter (hsub x hx)
    · exact hfresh

/-- `SpatialClusteringHelper.expandCluster`: seed the cluster and the
queue with the starting layer, mark it visited, and run the
breadth-first loop. -/
def expandCluster (seed : Layer) (allLayers : List Layer) (t : ℚ) (visited : List ℕ) :
    List Layer × List ℕ :=
  expandLoop allLayers t [seed] (seed.id :: visited) [seed]

/-- The `for (const layer of layers)` loop of `clusterByProximity`:
skip visited layers, expand a cluster from each unvisited one, and keep
the nonempty clusters. -/
def clusterLoop (allLayers : List Layer) (t : ℚ) : List Layer → List ℕ → List (List Layer)
  | [], _ => []
  | l :: rest, visited =>
    if l.id ∈ visited then clusterLoop allLayers t rest visited
    else
      match expandCluster l allLayers t visited with
      | (cluster, visited2) =>
        if cluster.length = 0 then clusterLoop allLayers t rest visited2
        else cluster :: clusterLoop allLayers t rest visited2

/-- `SpatialClusteringHelper.clusterByProximity`. -/
def clusterByProximity (layers : List Layer) (t : ℚ) : List (List Layer) :=
  if layers.length = 0 then []
  else if layers.length = 1 then [layers]
  else clusterLoop layers t layers []

/-- The neighbor edge of the clustering search: two input layers with
different ids within threshold distance. -/
def Linked (allLayers : List Layer) (t : ℚ) (x y : Layer) : Prop :=
  x ∈ allLayers ∧ y ∈ allLayers ∧ ¬ (x.id = y.id) ∧
    getMinDistanceLe x.bounds y.bounds t = true

/-- Chain connectivity through the input list: the reflexive-transitive
closure of the neighbor edge. -/
def Conn (allLayers : List Layer) (t : ℚ) : Layer → Layer → Prop :=
  Relation.ReflTransGen (Linked allLayers t)

/-- The threshold test is symmetric in its two rectangles. -/
theorem getMinDistanceLe_symm (a b : Bounds) (t : ℚ) :
    getMinDistanceLe a b t = getMinDistanceLe b a t := by
  unfold getMinDistanceLe hGap vGap
  rw [max_comm a.left b.left, min_comm a.right b.right,
    max_comm a.top b.top, min_comm a.bottom b.bottom]

/-- The neighbor edge is symmetric. -/
theorem Linked.symm {allLayers : List Layer} {t : ℚ} {x y : Layer}
    (h : Linked allLayers t x y) : Linked allLayers t y x :=
  ⟨h.2.1, h.1, fun e => h.2.2.1 e.symm, (getMinDistanceLe_symm y.bounds x.bounds t) ▸ h.2.2.2⟩

/-- Connectivity is symmetric. -/
theorem conn_symm {allLayers : List Layer} {t : ℚ} {x y : Layer}
    (h : Conn allLayers t x y) : Conn allLayers t y x :=
  Relation.ReflTransGen.symmetric (fun _ _ hl => Linked.symm hl) h

/-- Membership characterization of `findNeighbors`. -/
theorem mem_findNeighbors {y x : Layer} {allLayers : List Layer} {t : ℚ} :
    y ∈ findNeighbors x allLayers t ↔
      y ∈ allLayers ∧ ¬ (y.id = x.id) ∧ getMinDistanceLe x.bounds y.bounds t = true := by
  simp [findNeighbors, List.mem_filter]

/-- Main invariant of the breadth-first loop: it returns the input
cluster extended by a `grown` list of input layers with fresh, distinct
ids (recorded into `visited` in reverse), every grown layer is connected
to some queued layer, and afterwards every neighbor of a queued or grown
layer is visited. -/
theorem expandLoop_spec (allLayers : List Layer) (t : ℚ) (queue : List Layer)
    (visited : List ℕ) (cluster : List Layer) (hq : ∀ x ∈ queue, x ∈ allLayers) :
    ∃ grown : List Layer,
      expandLoop allLayers t queue visited cluster =
        (cluster ++ grown, (grown.map Layer.id).reverse ++ visited) ∧
      (∀ x ∈ grown, x ∈ allLayers) ∧
      (∀ x ∈ grown, x.id ∉ visited) ∧
      (grown.map Layer.id).Nodup ∧
      (∀ x ∈ grown, ∃ q ∈ queue, Conn allLayers t q x) ∧
      (∀ x, x ∈ queue ∨ x ∈ grown → ∀ y ∈ allLayers,
        ¬ (x.id = y.id) → getMinDistanceLe x.bounds y.bounds t = true →
        y.id ∈ (grown.map Layer.id).reverse ++ visited) := by
  induction queue, visited, cluster using expandLoop.induct allLayers t with
  | case1 visited cluster =>
    refine ⟨[], ?_, ?_, ?_, ?_, ?_, ?_⟩ <;> simp [expandLoop]
  | case2 visited cluster current rest v2 c2 q2 h ih =>
    obtain ⟨fresh, heq, hsub', hfresh, hndf, hcov⟩ :=
      visitNeighbors_spec (findNeighbors current allLayers t) visited cluster rest
    rw [heq] at h
    obtain ⟨hv, hc, hqe⟩ : v2 = (fresh.map Layer.id).reverse ++ visited ∧
        c2 = cluster ++ fresh ∧ q2 = rest ++ fresh := by
      refine ⟨(congrArg Prod.fst h).symm, (congrArg (fun p => p.2.1) h).symm,
        (congrArg (fun p => p.2.2) h).symm⟩
    subst hv hc hqe
    have hsubL : ∀ x ∈ fresh, x ∈ allLayers :=
      fun x hx => List.mem_of_mem_filter (hsub' x hx)
    have hq2 : ∀ x ∈ rest ++ fresh, x ∈ allLayers := by
      intro x hx
      rcases List.mem_append.mp hx with hx | hx
      · exact hq x (List.mem_cons_of_mem _ hx)
      · exact hsubL x hx
    obtain ⟨grown2, hres, hg2L, hg2fresh, hg2nd, hg2conn, hg2closed⟩ := ih hq2
    have hVeq : ((fresh ++ grown2).map Layer.id).reverse ++ visited =
        (grown2.map Layer.id).reverse ++ ((fresh.map Layer.id).reverse ++ visited) := by
      simp [List.map_append, List.reverse_append, List.append_assoc]
    have hlinked : ∀ x ∈ fresh, Linked allLayers t current x := by
      intro x hx
      obtain ⟨hxL, hxid, hxd⟩ := mem_findNeighbors.mp (hsub' x hx)
      exact ⟨hq current (List.mem_cons_self _ _), hxL, fun e => hxid e.symm, hxd⟩
    refine ⟨fresh ++ grown2, ?_, ?_, ?_, ?_, ?_, ?_⟩
    · rw [expandLoop, heq]
      refine hres.trans ?_
      rw [hVeq, List.append_assoc]
    · intro x hx
      rcases List.mem_append.mp hx with hx | hx
      · exact hsubL x hx
      · exact hg2L x hx
    · intro x hx
      rcases List.mem_append.mp hx with hx | hx
      · exact hfresh x hx
      · intro hvmem
        exact hg2fresh x hx (List.mem_append_right _ hvmem)
    · rw [List.map_append, List.nodup_append]
      refine ⟨hndf, hg2nd, ?_⟩
      intro i hif hig
      obtain ⟨x, hx, rfl⟩ := List.mem_map.mp hig
      exact hg2fresh x hx (List.mem_append_left _ (by simpa using hif))
    · intro x hx
      rcases List.mem_append.mp hx with hx | hx
      · exact ⟨current, List.mem_cons_self _ _, Relation.ReflTransGen.single (hlinked x hx)⟩
      · obtain ⟨q, hqmem, hconn⟩ := hg2conn x hx
        rcases List.mem_append.mp hqmem with hqm | hqm
        · exact ⟨q, List.mem_cons_of_mem _ hqm, hconn⟩
        · exact ⟨current, List.mem_cons_self _ _,
            (Relation.ReflTransGen.single (hlinked q hqm)).trans hconn⟩
    · intro x hx y hyL hyid hyd
      rw [hVeq]
      rcases hx with hx | hx
      · rcases List.mem_cons.mp hx with rfl | hx'
        · have : y ∈ findNeighbors x allLayers t :=
            mem_findNeighbors.mpr ⟨hyL, fun e => hyid e.symm, hyd⟩
          exact List.mem_append_right _ (hcov y this)
        · exact hg2closed x (Or.inl (List.mem_append_left _ hx')) y hyL hyid hyd
      · rcases List.mem_append.mp hx with hx' | hx'
        · exact hg2closed x (Or.inl (List.mem_append_right _ hx')) y hyL hyid hyd
        · exact hg2closed x (Or.inr hx') y hyL hyid hyd

/-- Specification of one `expandCluster` call on an unvisited seed from
the input: the returned cluster contains the seed, consists of input
layers with fresh distinct ids (exactly the ids newly recorded in
`visited`), all connected to the seed, and is neighbor-closed up to the
returned visited set. -/
theorem expandCluster_spec (allLayers : List Layer) (t : ℚ) (seed : Layer) (visited : List ℕ)
    (hseed : seed ∈ allLayers) (hsv : seed.id ∉ visited) :
    ∃ clus : List Layer,
      expandCluster seed allLayers t visited =
        (clus, (clus.map Layer.id).reverse ++ visited) ∧
      seed ∈ clus ∧ clus ≠ [] ∧
      (∀ x ∈ clus, x ∈ allLayers) ∧
      (∀ x ∈ clus, x.id ∉ visited) ∧
      (clus.map Layer.id).Nodup ∧
      (∀ x ∈ clus, Conn allLayers t seed x) ∧
      (∀ x ∈ clus, ∀ y ∈ allLayers, ¬ (x.id = y.id) →
        getMinDistanceLe x.bounds y.bounds t = true →
        y.id ∈ (clus.map Layer.id).reverse ++ visited) := by
  obtain ⟨grown, hres, hL, hfresh, hnd, hconn, hclosed⟩ :=
    expandLoop_spec allLayers t [seed] (seed.id :: visited) [seed]
      (by intro x hx; rw [List.mem_singleton] at hx; subst hx; exact hseed)
  have hVeq : ((seed :: grown).map Layer.id).reverse ++ visited =
      (grown.map Layer.id).reverse ++ (seed.id :: visited) := by
    simp
  refine ⟨seed :: grown, ?_, List.mem_cons_self _ _, by simp, ?_, ?_, ?_, ?_, ?_⟩
  · rw [expandCluster, hres, hVeq]
    rfl
  · intro x hx
    rcases List.mem_cons.mp hx with rfl | hx'
    · exact hseed
    · exact hL x hx'
  · intro x hx
    rcases List.mem_cons.mp hx with rfl | hx'
    · exact hsv
    · exact fun hv => hfresh x hx' (List.mem_cons_of_mem _ hv)
  · refine List.nodup_cons.mpr ⟨?_, hnd⟩
    intro hmem
    obtain ⟨x, hx, hxid⟩ := List.mem_map.mp hmem
    exact hfresh x hx (hxid ▸ List.mem_cons_self _ _)
  · intro x hx
    rcases List.mem_cons.mp hx with rfl | hx'
    · exact Relation.ReflTransGen.refl
    · obtain ⟨q, hqm, hc⟩ := hconn x hx'
      rw [List.mem_singleton] at hqm
      exact hqm ▸ hc
  · intro x hx y hyL hyid hyd
    rw [hVeq]
    rcases List.mem_cons.mp hx with rfl | hx'
    · exact hclosed x (Or.inl (List.mem_singleton_self _)) y hyL hyid hyd
    · exact hclosed x (Or.inr hx') y hyL hyid hyd

/-- Invariant of the emitted cluster list relative to the ids already
visited before it: each emitted cluster is nonempty, holds input layers
with distinct unseen ids, is connected from one of its members, and its
members' neighbors lie inside the cluster or among the earlier ids. -/
def ChunkInv (allLayers : List Layer) (t : ℚ) : List (List Layer) → List ℕ → Prop
  | [], _ => True
  | c :: rest, vis =>
    (c ≠ [] ∧ (∀ x ∈ c, x ∈ allLayers) ∧ (c.map Layer.id).Nodup ∧
     (∀ x ∈ c, x.id ∉ vis) ∧
     (∃ s ∈ c, ∀ x ∈ c, Conn allLayers t s x) ∧
     (∀ x ∈ c, ∀ y ∈ allLayers, ¬ (x.id = y.id) →
        getMinDistanceLe x.bounds y.bounds t = true →
        y.id ∈ c.map Layer.id ∨ y.id ∈ vis)) ∧
    ChunkInv allLayers t rest ((c.map Layer.id).reverse ++ vis)

/-- The outer clustering loop establishes the chunk invariant, and every
remaining layer's id is either previously visited or ends up in some
emitted cluster. -/
theorem clusterLoop_spec (allLayers : List Layer) (t : ℚ) :
    ∀ (remaining : List Layer) (visited : List ℕ),
    (∀ x ∈ remaining, x ∈ allLayers) →
    ChunkInv allLayers t (clusterLoop allLayers t remaining visited) visited ∧
    (∀ x ∈ remaining, x.id ∈ visited ∨
      x.id ∈ (clusterLoop allLayers t remaining visited).flatten.map Layer.id) := by
  intro remaining
  induction remaining with
  | nil =>
    intro visited _
    exact ⟨trivial, by simp⟩
  | cons l rest ih =>
    intro visited hrem
    have hrest : ∀ x ∈ rest, x ∈ allLayers :=
      fun x hx => hrem x (List.mem_cons_of_mem _ hx)
    by_cases hv : l.id ∈ visited
    · have hstep : clusterLoop allLayers t (l :: rest) visited =
          clusterLoop allLayers t rest visited := by
        rw [clusterLoop, if_pos hv]
      obtain ⟨hinv, hcov⟩ := ih visited hrest
      rw [hstep]
      refine ⟨hinv, ?_⟩
      intro x hx
      rcases List.mem_cons.mp hx with rfl | hx'
      · exact Or.inl hv
      · exact hcov x hx'
    · obtain ⟨clus, hres, hseedmem, hne, hcL, hcfresh, hcnd, hcconn, hcclosed⟩ :=
        expandCluster_spec allLayers t l visited (hrem l (List.mem_cons_self _ _)) hv
      have hlen : ¬ (clus.length = 0) := fun h => hne (List.length_eq_zero.mp h)
      have hstep : clusterLoop allLayers t (l :: rest) visited =
          clus :: clusterLoop allLayers t rest ((clus.map Layer.id).reverse ++ visited) := by
        rw [clusterLoop, if_neg hv, hres]
        show (if clus.length = 0 then _ else _) = _
        rw [if_neg hlen]
      obtain ⟨hinv, hcov⟩ := ih ((clus.map Layer.id).reverse ++ visited) hrest
      rw [hstep]
      constructor
      · refine ⟨⟨hne, hcL, hcnd, hcfresh, ⟨l, hseedmem, hcconn⟩, ?_⟩, hinv⟩
        intro x hx y hyL hyid hyd
        have := hcclosed x hx y hyL hyid hyd
        rcases List.mem_append.mp this with hmem | hmem
        · exact Or.inl (List.mem_reverse.mp hmem)
        · exact Or.inr hmem
      · intro x hx
        rcases List.mem_cons.mp hx with rfl | hx'
        · refine Or.inr ?_
          rw [List.flatten_cons, List.map_append]
          exact List.mem_append_left _ (List.mem_map_of_mem _ hseedmem)
        · rcases hcov x hx' with hmem | hmem
          · rcases List.mem_append.mp hmem with hmem2 | hmem2
            · refine Or.inr ?_
              rw [List.flatten_cons, List.map_append]
              exact List.mem_append_left _ (List.mem_reverse.mp hmem2)
            · exact Or.inl hmem2
          · refine Or.inr ?_
            rw [List.flatten_cons, List.map_append]
            exact List.mem_append_right _ hmem

/-- Under the chunk invariant, the flattened ids are distinct and avoid
the previously visited ids. -/
theorem chunkInv_flatten_nodup (allLayers : List Layer) (t : ℚ) :
    ∀ (cs : List (List Layer)) (vis : List ℕ), ChunkInv allLayers t cs vis →
    (cs.flatten.map Layer.id).Nodup ∧ (∀ i ∈ cs.flatten.map Layer.id, i ∉ vis) := by
  intro cs
  induction cs with
  | nil => intro vis _; simp
  | cons c rest ih =>
    intro vis hinv
    obtain ⟨⟨hne, hcL, hcnd, hcfresh, hconn, hclosed⟩, htail⟩ := hinv
    obtain ⟨hnd2, hfresh2⟩ := ih _ htail
    rw [List.flatten_cons, List.map_append]
    constructor
    · rw [List.nodup_append]
      refine ⟨hcnd, hnd2, ?_⟩
      intro i hic hir
      have := hfresh2 i hir
      exact this (List.mem_append_left _ (List.mem_reverse.mpr hic))
    · intro i hi hivis
      rcases List.mem_append.mp hi with hi' | hi'
      · obtain ⟨x, hx, rfl⟩ := List.mem_map.mp hi'
        exact hcfresh x hx hivis
      · exact hfresh2 i hi' (List.mem_append_right _ hivis)

/-- Each emitted cluster is nonempty and consists of input layers. -/
theorem chunkInv_members (allLayers : List Layer) (t : ℚ) :
    ∀ (cs : List (List Layer)) (vis : List ℕ), ChunkInv allLayers t cs vis →
    ∀ c ∈ cs, c ≠ [] ∧ (∀ x ∈ c, x ∈ allLayers) ∧
      (∃ s ∈ c, ∀ x ∈ c, Conn allLayers t s x) := by
  intro cs
  induction cs with
  | nil => intro vis _ c hc; simp at hc
  | cons c0 rest ih =>
    intro vis hinv c hc
    obtain ⟨⟨hne, hcL, hcnd, hcfresh, hconn, hclosed⟩, htail⟩ := hinv
    rcases List.mem_cons.mp hc with rfl | hc'
    · exact ⟨hne, hcL, hconn⟩
    · exact ih _ htail c hc'

/-- Distinct input ids pin down layers: two input layers with the same
id are equal. -/
theorem id_injective {layers : List Layer} (h : (layers.map Layer.id).Nodup) :
    ∀ x ∈ layers, ∀ y ∈ layers, x.id = y.id → x = y := by
  induction layers with
  | nil => intro x hx; simp at hx
  | cons a rest ih =>
    intro x hx y hy hxy
    rw [List.map_cons, List.nodup_cons] at h
    rcases List.mem_cons.mp hx with rfl | hx' <;> rcases List.mem_cons.mp hy with rfl | hy'
    · rfl
    · exact absurd (hxy ▸ List.mem_map_of_mem Layer.id hy') h.1
    · exact absurd (hxy ▸ List.mem_map_of_mem Layer.id hx') h.1
    · exact ih h.2 x hx' y hy' hxy

/-- Under distinct input ids, every emitted cluster is closed under the
neighbor edge: a neighbor of a member is itself a member. -/
theorem chunkInv_closed (allLayers : List Layer) (t : ℚ)
    (hids : (allLayers.map Layer.id).Nodup) :
    ∀ (cs : List (List Layer)) (vis : List ℕ), ChunkInv allLayers t cs vis →
    (∀ y ∈ allLayers, y.id ∈ vis → ∀ z, Linked allLayers t y z → z.id ∈ vis) →
    ∀ c ∈ cs, ∀ x ∈ c, ∀ y, Linked allLayers t x y → y ∈ c := by
  intro cs
  induction cs with
  | nil => intro vis _ _ c hc; simp at hc
  | cons c0 rest ih =>
    intro vis hinv hvisclosed c hc x hx y hlink
    obtain ⟨⟨hne, hcL, hcnd, hcfresh, hconn, hclosed⟩, htail⟩ := hinv
    rcases List.mem_cons.mp hc with rfl | hc'
    · have hyin := hclosed x hx y hlink.2.1 hlink.2.2.1 hlink.2.2.2
      rcases hyin with hyc | hyvis
      · obtain ⟨z, hz, hzid⟩ := List.mem_map.mp hyc
        have : z = y := id_injective hids z (hcL z hz) y hlink.2.1 hzid
        exact this ▸ hz
      · exfalso
        have hxid := hvisclosed y hlink.2.1 hyvis x hlink.symm
        exact hcfresh x hx hxid
    · refine ih _ htail ?_ c hc' x hx y hlink
      intro w hw hwvis z hlinkwz
      rcases List.mem_append.mp hwvis with hwc | hwv
      · have hwmem : w ∈ c0 := by
          obtain ⟨u, hu, huid⟩ := List.mem_map.mp (List.mem_reverse.mp hwc)
          exact (id_injective hids u (hcL u hu) w hw huid) ▸ hu
        have := hclosed w hwmem z hlinkwz.2.1 hlinkwz.2.2.1 hlinkwz.2.2.2
        rcases this with hzc | hzv
        · exact List.mem_append_left _ (List.mem_reverse.mpr hzc)
        · exact List.mem_append_right _ hzv
      · exact List.mem_append_right _ (hvisclosed w hw hwv z hlinkwz)

/-- A neighbor-closed cluster absorbs whole connectivity chains. -/
theorem conn_stays_in_cluster {allLayers : List Layer} {t : ℚ} {c : List Layer}
    (hclosed : ∀ x ∈ c, ∀ y, Linked allLayers t x y → y ∈ c)
    {a b : Layer} (hconn : Conn allLayers t a b) (ha : a ∈ c) : b ∈ c := by
  induction hconn with
  | refl => exact ha
  | tail _ hstep ih => exact hclosed _ ih _ hstep

/-- C1: with distinct input ids (the upstream parser generates a fresh
id per layer), `clusterByProximity` partitions its input: the clusters
flatten to a permutation of the input list, they are pairwise disjoint,
and every input layer lies in exactly one cluster. -/
theorem clusterByProximity_partition (layers : List Layer) (t : ℚ)
    (hids : (layers.map Layer.id).Nodup) :
    (clusterByProximity layers t).flatten.Perm layers ∧
    List.Pairwise (fun c d => ∀ x, x ∈ c → x ∉ d) (clusterByProximity layers t) ∧
    (∀ x ∈ layers, ∃ c, c ∈ clusterByProximity layers t ∧ x ∈ c ∧
      ∀ d, d ∈ clusterByProximity layers t → x ∈ d → d = c) := by
  match layers with
  | [] =>
    refine ⟨?_, ?_, ?_⟩ <;> simp [clusterByProximity]
  | [a] =>
    have hone : clusterByProximity [a] t = [[a]] := by simp [clusterByProximity]
    rw [hone]
    refine ⟨by simp, by simp, ?_⟩
    intro x hx
    rw [List.mem_singleton] at hx
    subst hx
    exact ⟨[x], List.mem_singleton_self _, List.mem_singleton_self _,
      fun d hd _ => List.mem_singleton.mp hd⟩
  | a :: b :: rest =>
    have hcs : clusterByProximity (a :: b :: rest) t =
        clusterLoop (a :: b :: rest) t (a :: b :: rest) [] := by
      simp [clusterByProximity]
    obtain ⟨hinv, hcov⟩ := clusterLoop_spec (a :: b :: rest) t (a :: b :: rest) []
      (fun x hx => hx)
    rw [hcs]
    set L := a :: b :: rest with hL
    set cs := clusterLoop L t L [] with hcsdef
    obtain ⟨hndids, _⟩ := chunkInv_flatten_nodup L t cs [] hinv
    have hmemL : ∀ x ∈ cs.flatten, x ∈ L := by
      intro x hx
      obtain ⟨c, hc, hxc⟩ := List.mem_flatten.mp hx
      exact ((chunkInv_members L t cs [] hinv c hc).2.1) x hxc
    have hLmem : ∀ x ∈ L, x ∈ cs.flatten := by
      intro x hx
      have hid : x.id ∈ cs.flatten.map Layer.id := (hcov x hx).resolve_left (by simp)
      obtain ⟨z, hz, hzid⟩ := List.mem_map.mp hid
      exact (id_injective hids z (hmemL z hz) x hx hzid) ▸ hz
    have hndfl : cs.flatten.Nodup := List.Nodup.of_map _ hndids
    have hpair : List.Pairwise List.Disjoint cs := (List.nodup_flatten.mp hndfl).2
    have hpair2 : List.Pairwise (fun c d => ∀ x, x ∈ c → x ∉ d) cs :=
      hpair.imp (fun hdisj x hxc hxd => hdisj hxc hxd)
    refine ⟨?_, hpair2, ?_⟩
    · exact (List.perm_ext_iff_of_nodup hndfl (List.Nodup.of_map _ hids)).mpr
        (fun x => ⟨fun h => hmemL x h, fun h => hLmem x h⟩)
    · intro x hx
      obtain ⟨c, hc, hxc⟩ := List.mem_flatten.mp (hLmem x hx)
      refine ⟨c, hc, hxc, ?_⟩
      intro d hd hxd
      by_contra hne
      have hsymm : Symmetric (fun c d : List Layer => ∀ x, x ∈ c → x ∉ d) :=
        fun c d h x hxd hxc => h x hxc hxd
      exact (hpair2.forall hsymm hd hc hne) x hxd hxc

/-- Two layers land in a common cluster of `clusterByProximity`. -/
def SameCluster (layers : List Layer) (t : ℚ) (x y : Layer) : Prop :=
  ∃ c, c ∈ clusterByProximity layers t ∧ x ∈ c ∧ y ∈ c

end SpatialClusteringHelper

/-- Layer spanning x = [0,10] (y = [0,10]). -/
def layerA : Layer := mkRectLayer 0 (Bounds.make 0 0 10 10)

/-- Layer spanning x = [15,25] (y = [0,10]): gap 5 from `layerA`. -/
def layerB : Layer := mkRectLayer 1 (Bounds.make 0 15 25 10)

/-- The spec's two-layer connectivity example. -/
def pairLayers : List Layer := [layerA, layerB]

/-- C1 witness: the partition theorem applied to the concrete two-layer
input. -/
theorem clusterByProximity_partition_witness :
    (SpatialClusteringHelper.clusterByProximity pairLayers 10).flatten.Perm pairLayers :=
  (SpatialClusteringHelper.clusterByProximity_partition pairLayers 10 (by decide)).1

/-- C2: with distinct input ids, two input layers within threshold
distance land in the same cluster, and two layers in the same cluster
are always linked by a chain of threshold-distance hops; on the spec's
example, the pair with gap 5 forms one cluster at threshold 10 and two
clusters at threshold 2. -/
theorem clusterByProximity_connectivity (layers : List Layer) (t : ℚ)
    (hids : (layers.map Layer.id).Nodup) :
    ((∀ a ∈ layers, ∀ b ∈ layers,
        SpatialClusteringHelper.getMinDistanceLe a.bounds b.bounds t = true →
        SpatialClusteringHelper.SameCluster layers t a b) ∧
      (∀ a b : Layer, SpatialClusteringHelper.SameCluster layers t a b →
        SpatialClusteringHelper.Conn layers t a b)) ∧
    SpatialClusteringHelper.clusterByProximity pairLayers 10 = [[layerA, layerB]] ∧
    SpatialClusteringHelper.clusterByProximity pairLayers 2 = [[layerA], [layerB]] := by
  refine ⟨?_, ?_, ?_⟩
  · match layers, hids with
    | [], _ =>
      refine ⟨?_, ?_⟩
      · intro a ha; simp at ha
      · intro a b ⟨c, hc, _⟩
        simp [SpatialClusteringHelper.clusterByProximity] at hc
    | [x], _ =>
      have hone : SpatialClusteringHelper.clusterByProximity [x] t = [[x]] := by
        simp [SpatialClusteringHelper.clusterByProximity]
      refine ⟨?_, ?_⟩
      · intro a ha b hb _
        rw [List.mem_singleton] at ha hb
        refine ⟨[x], by rw [hone]; exact List.mem_singleton_self _, ?_, ?_⟩
        · rw [ha]; exact List.mem_singleton_self _
        · rw [hb]; exact List.mem_singleton_self _
      · intro a b ⟨c, hc, hac, hbc⟩
        rw [hone, List.mem_singleton] at hc
        subst hc
        rw [List.mem_singleton] at hac hbc
        subst hac; subst hbc
        exact Relation.ReflTransGen.refl
    | l1 :: l2 :: rest, hids =>
      have hcs : SpatialClusteringHelper.clusterByProximity (l1 :: l2 :: rest) t =
          SpatialClusteringHelper.clusterLoop (l1 :: l2 :: rest) t (l1 :: l2 :: rest) [] := by
        simp [SpatialClusteringHelper.clusterByProximity]
      obtain ⟨hinv, hcov⟩ := SpatialClusteringHelper.clusterLoop_spec
        (l1 :: l2 :: rest) t (l1 :: l2 :: rest) [] (fun x hx => hx)
      have hmemL : ∀ x ∈ (SpatialClusteringHelper.clusterLoop
          (l1 :: l2 :: rest) t (l1 :: l2 :: rest) []).flatten, x ∈ l1 :: l2 :: rest := by
        intro x hx
        obtain ⟨c, hc, hxc⟩ := List.mem_flatten.mp hx
        exact ((SpatialClusteringHelper.chunkInv_members _ t _ [] hinv c hc).2.1) x hxc
      have hLmem : ∀ x ∈ l1 :: l2 :: rest, ∃ c,
          c ∈ SpatialClusteringHelper.clusterLoop (l1 :: l2 :: rest) t (l1 :: l2 :: rest) [] ∧
          x ∈ c := by
        intro x hx
        have hid : x.id ∈ (SpatialClusteringHelper.clusterLoop
            (l1 :: l2 :: rest) t (l1 :: l2 :: rest) []).flatten.map Layer.id :=
          (hcov x hx).resolve_left (by simp)
        obtain ⟨z, hz, hzid⟩ := List.mem_map.mp hid
        obtain ⟨c, hc, hzc⟩ := List.mem_flatten.mp hz
        exact ⟨c, hc, (SpatialClusteringHelper.id_injective hids z (hmemL z hz) x hx hzid) ▸ hzc⟩
      have hclosedAll := SpatialClusteringHelper.chunkInv_closed (l1 :: l2 :: rest) t hids
        _ [] hinv (by intro y _ hy; simp at hy)
      refine ⟨?_, ?_⟩
      · intro a ha b hb hdist
        by_cases hab : a = b
        · subst hab
          obtain ⟨c, hc, hac⟩ := hLmem a ha
          exact ⟨c, hcs ▸ hc, hac, hac⟩
        · have hne : ¬ (a.id = b.id) :=
            fun he => hab (SpatialClusteringHelper.id_injective hids a ha b hb he)
          obtain ⟨c, hc, hac⟩ := hLmem a ha
          have hbc : b ∈ c := hclosedAll c hc a hac b ⟨ha, hb, hne, hdist⟩
          exact ⟨c, hcs ▸ hc, hac, hbc⟩
      · intro a b ⟨c, hc, hac, hbc⟩
        rw [hcs] at hc
        obtain ⟨s, hs, hconn⟩ :=
          (SpatialClusteringHelper.chunkInv_members _ t _ [] hinv c hc).2.2
        exact (SpatialClusteringHelper.conn_symm (hconn a hac)).trans (hconn b hbc)
  · norm_num [SpatialClusteringHelper.clusterByProximity, SpatialClusteringHelper.clusterLoop,
      SpatialClusteringHelper.expandCluster, SpatialClusteringHelper.expandLoop,
      SpatialClusteringHelper.visitNeighbors, SpatialClusteringHelper.findNeighbors,
      SpatialClusteringHelper.getMinDistanceLe, SpatialClusteringHelper.hGap,
      SpatialClusteringHelper.vGap, pairLayers, layerA, layerB, mkRectLayer, Bounds.make,
      List.filter]
  · norm_num [SpatialClusteringHelper.clusterByProximity, SpatialClusteringHelper.clusterLoop,
      SpatialClusteringHelper.expandCluster, SpatialClusteringHelper.expandLoop,
      SpatialClusteringHelper.visitNeighbors, SpatialClusteringHelper.findNeighbors,
      SpatialClusteringHelper.getMinDistanceLe, SpatialClusteringHelper.hGap,
      SpatialClusteringHelper.vGap, pairLayers, layerA, layerB, mkRectLayer, Bounds.make,
      List.filter]

/-- C2 witness: the connectivity theorem applied to the concrete pair at
threshold 10 — the two layers with gap 5 land in the same cluster. -/
theorem clusterByProximity_connectivity_witness :
    SpatialClusteringHelper.SameCluster pairLayers 10 layerA layerB :=
  (clusterByProximity_connectivity pairLayers 10 (by decide)).1.1
    layerA (by simp [pairLayers]) layerB (by simp [pairLayers])
    (by norm_num [SpatialClusteringHelper.getMinDistanceLe, SpatialClusteringHelper.hGap,
      SpatialClusteringHelper.vGap, layerA, layerB, mkRectLayer, Bounds.make])

/-- JavaScript double values as far as the validity filter observes
them: finite numbers, the two infinities, and NaN. -/
inductive JSNum where
  | num (q : ℚ)
  | posInf
  | negInf
  | nan
deriving DecidableEq, Repr

/-- IEEE `a > b` on JavaScript numbers: any comparison involving NaN is
false; infinities compare as usual. -/
def JSNum.gt : JSNum → JSNum → Bool
  | .num a, .num b => decide (b < a)
  | .num _, .negInf => true
  | .posInf, .num _ => true
  | .posInf, .negInf => true
  | _, _ => false

/-- `Number.isFinite`. -/
def JSNum.isFinite : JSNum → Bool
  | .num _ => true
  | _ => false

/-- A bounds record whose stored values may be non-finite, as handed
over by a misbehaving upstream decoder. -/
structure NBounds where
  top : JSNum
  left : JSNum
  right : JSNum
  bottom : JSNum
  width : JSNum
  height : JSNum
deriving DecidableEq, Repr

/-- A flattened leaf layer at the adapter boundary (only the fields the
validity filter reads). -/
structure NLayer where
  id : ℕ
  visible : Bool
  bounds : Option NBounds
deriving DecidableEq, Repr

namespace RawPSDAdapter

/-- The predicate of `RawPSDAdapter.filterValidLayers`:
`layer.visible !== false && layer.bounds && layer.bounds.width > 0 &&
layer.bounds.height > 0`, with IEEE comparison semantics on the stored
width/height. -/
def isValidLayer (layer : NLayer) : Bool :=
  layer.visible &&
    (match layer.bounds with
     | some b => b.width.gt (.num 0) && b.height.gt (.num 0)
     | none => false)

/-- `RawPSDAdapter.filterValidLayers` (step 2 of `processLayers`): a
plain filter whose output feeds `clusterByProximity` — it never throws
and never rewrites a layer. -/
def filterValidLayersN (layers : List NLayer) : List NLayer :=
  layers.filter isValidLayer

end RawPSDAdapter

/-- A visible layer whose right/width are +Infinity but whose IEEE
width/height positivity checks pass. -/
def infLayer : NLayer :=
  ⟨100, true, some ⟨.num 0, .num 0, .posInf, .num 10, .posInf, .num 10⟩⟩

/-- A visible layer with NaN top/bottom/height: the height positivity
check is false, so it is silently dropped. -/
def nanLayer : NLayer :=
  ⟨101, true, some ⟨.nan, .num 0, .num 10, .nan, .num 10, .nan⟩⟩

/-- C8 counterexample: non-finite bounds are not rejected at the
boundary. The Infinity-bounds layer passes `filterValidLayers` (and so
flows into the clustering distance math), and the NaN-bounds layer is
silently filtered out; neither is an error. -/
theorem filterValidLayers_nonfinite_not_rejected :
    RawPSDAdapter.filterValidLayersN [infLayer, nanLayer] = [infLayer] ∧
    (infLayer.bounds.map fun b => b.width.isFinite) = some false ∧
    (nanLayer.bounds.map fun b => b.height.isFinite) = some false := by
  refine ⟨?_, rfl, rfl⟩
  norm_num [RawPSDAdapter.filterValidLayersN, RawPSDAdapter.isValidLayer, infLayer, nanLayer,
    List.filter, JSNum.gt]

/-- C8 amended: `filterValidLayers` is a pure filter — every survivor is
an unchanged member of the input satisfying the validity predicate
(nothing is defaulted, nothing raises), the Infinity-bounds layer
survives it, and the NaN-bounds layer is dropped silently. -/
theorem filterValidLayers_pure_filter (layers : List NLayer) :
    (∀ l ∈ RawPSDAdapter.filterValidLayersN layers,
      l ∈ layers ∧ RawPSDAdapter.isValidLayer l = true) ∧
    RawPSDAdapter.filterValidLayersN [infLayer, nanLayer] = [infLayer] := by
  constructor
  · intro l hl
    exact ⟨List.mem_of_mem_filter hl, List.of_mem_filter hl⟩
  · norm_num [RawPSDAdapter.filterValidLayersN, RawPSDAdapter.isValidLayer, infLayer, nanLayer,
      List.filter, JSNum.gt]

/-- C8 witness: the amended theorem applied at the concrete input — the
Infinity-bounds layer is in the filter output, unchanged and valid. -/
theorem filterValidLayers_pure_filter_witness :
    infLayer ∈ [infLayer, nanLayer] ∧ RawPSDAdapter.isValidLayer infLayer = true :=
  (filterValidLayers_pure_filter [infLayer, nanLayer]).1 infLayer
    (by rw [(filterValidLayers_pure_filter [infLayer, nanLayer]).2]
        exact List.mem_singleton_self _)

namespace SpatialClusteringHelper

/-- `calculateClusterBounds`: union bounding box of the cluster. The
source seeds the scan with ±Infinity and folds min/max over the
members; for a nonempty cluster this equals folding from the first
member's bounds, which is how it is modelled (bounds are always present
on modelled layers). The empty cluster returns the zero record, as in
the source. -/
def calculateClusterBounds (cluster : List Layer) : Bounds :=
  match cluster with
  | [] => ⟨0, 0, 0, 0, 0, 0⟩
  | l :: ls =>
    let minTop := (ls.map (fun x => x.bounds.top)).foldl min l.bounds.top
    let minLeft := (ls.map (fun x => x.bounds.left)).foldl min l.bounds.left
    let maxRight := (ls.map (fun x => x.bounds.right)).foldl max l.bounds.right
    let maxBottom := (ls.map (fun x => x.bounds.bottom)).foldl max l.bounds.bottom
    ⟨minTop, minLeft, maxRight, maxBottom, maxRight - minLeft, maxBottom - minTop⟩

/-- The `{isRepeating, count, avgWidth, avgHeight}` record of
`detectRepeatingPattern` (the non-repeating early return carries only
`isRepeating: false`; its other fields are never read and modelled as
zeros). -/
structure PatternInfo where
  isRepeating : Bool
  count : ℕ
  avgWidth : ℚ
  avgHeight : ℚ
deriving DecidableEq, Repr

/-- `detectRepeatingPattern`: at least two clusters whose widths and
heights all lie within 20% of the cross-cluster averages. -/
def detectRepeatingPattern (clusters : List (List Layer)) : PatternInfo :=
  if clusters.length < 2 then ⟨false, 0, 0, 0⟩
  else
    let bounds := clusters.map calculateClusterBounds
    let widths := bounds.map Bounds.width
    let heights := bounds.map Bounds.height
    let avgWidth := widths.sum / (widths.length : ℚ)
    let avgHeight := heights.sum / (heights.length : ℚ)
    let isRepeating := bounds.all (fun b =>
      |b.width - avgWidth| < avgWidth * (2/10) ∧ |b.height - avgHeight| < avgHeight * (2/10))
    ⟨isRepeating, clusters.length, avgWidth, avgHeight⟩

/-- The flattened output of `clusterByProximity` is never longer than
its input (each push into a cluster is paired with marking one fresh
id). -/
theorem clusterByProximity_flatten_le (layers : List Layer) (t : ℚ) :
    (clusterByProximity layers t).flatten.length ≤ layers.length := by
  match layers with
  | [] => simp [clusterByProximity]
  | [a] => simp [clusterByProximity]
  | a :: b :: rest =>
    have hcs : clusterByProximity (a :: b :: rest) t =
        clusterLoop (a :: b :: rest) t (a :: b :: rest) [] := by
      simp [clusterByProximity]
    obtain ⟨hinv, _⟩ := clusterLoop_spec (a :: b :: rest) t (a :: b :: rest) []
      (fun x hx => hx)
    obtain ⟨hnd, _⟩ := chunkInv_flatten_nodup (a :: b :: rest) t _ [] hinv
    have hsubL : ∀ x ∈ (clusterLoop (a :: b :: rest) t (a :: b :: rest) []).flatten,
        x ∈ a :: b :: rest := by
      intro x hx
      obtain ⟨c, hc, hxc⟩ := List.mem_flatten.mp hx
      exact ((chunkInv_members _ t _ [] hinv c hc).2.1) x hxc
    rw [hcs]
    set fl := (clusterLoop (a :: b :: rest) t (a :: b :: rest) []).flatten with hfl
    have h1 : fl.length = (fl.map Layer.id).length := (List.length_map _ _).symm
    have hsubid : (fl.map Layer.id) ⊆ ((a :: b :: rest).map Layer.id) := by
      intro i hi
      obtain ⟨x, hx, rfl⟩ := List.mem_map.mp hi
      exact List.mem_map_of_mem _ (hsubL x hx)
    have h2 : (fl.map Layer.id).length ≤ ((a :: b :: rest).map Layer.id).length := by
      have hc1 : (fl.map Layer.id).toFinset.card = (fl.map Layer.id).length :=
        List.toFinset_card_of_nodup hnd
      have hc2 : (fl.map Layer.id).toFinset ⊆ ((a :: b :: rest).map Layer.id).toFinset := by
        intro i hi
        rw [List.mem_toFinset] at hi ⊢
        exact hsubid hi
      calc (fl.map Layer.id).length = (fl.map Layer.id).toFinset.card := hc1.symm
        _ ≤ ((a :: b :: rest).map Layer.id).toFinset.card := Finset.card_le_card hc2
        _ ≤ ((a :: b :: rest).map Layer.id).length := List.toFinset_card_le _
    rw [h1]
    simpa using h2

/-- Every cluster in the output of `clusterByProximity` is nonempty. -/
theorem clusterByProximity_members_ne (layers : List Layer) (t : ℚ) :
    ∀ c ∈ clusterByProximity layers t, c ≠ [] := by
  match layers with
  | [] => simp [clusterByProximity]
  | [a] => simp [clusterByProximity]
  | a :: b :: rest =>
    have hcs : clusterByProximity (a :: b :: rest) t =
        clusterLoop (a :: b :: rest) t (a :: b :: rest) [] := by
      simp [clusterByProximity]
    obtain ⟨hinv, _⟩ := clusterLoop_spec (a :: b :: rest) t (a :: b :: rest) []
      (fun x hx => hx)
    intro c hc
    rw [hcs] at hc
    exact (chunkInv_members _ t _ [] hinv c hc).1

/-- When `clusterByProximity` splits the input into more than one
cluster, every cluster is strictly shorter than the input — the
termination argument for recursive sub-clustering. -/
theorem clusterByProximity_piece_lt (layers : List Layer) (t : ℚ)
    (hmulti : 1 < (clusterByProximity layers t).length) :
    ∀ c ∈ clusterByProximity layers t, c.length < layers.length := by
  intro c hc
  obtain ⟨s1, s2, hsplit⟩ := List.append_of_mem hc
  have hflat := clusterByProximity_flatten_le layers t
  rw [hsplit] at hflat hmulti
  have hlen : (s1 ++ c :: s2).flatten.length =
      s1.flatten.length + (c.length + s2.flatten.length) := by
    simp [List.flatten_append]
  have hother : 1 ≤ s1.flatten.length + s2.flatten.length := by
    rcases s1 with _ | ⟨d, s1'⟩
    · rcases s2 with _ | ⟨d, s2'⟩
      · simp at hmulti
      · have hd : d ≠ [] := by
          apply clusterByProximity_members_ne layers t
          rw [hsplit]
          simp
        have : 1 ≤ d.length := by
          cases d with
          | nil => exact absurd rfl hd
          | cons _ _ => simp
        calc 1 ≤ d.length := this
          _ ≤ [].flatten.length + (d :: s2').flatten.length := by simp
    · have hd : d ≠ [] := by
        apply clusterByProximity_members_ne layers t
        rw [hsplit]
        simp
      have : 1 ≤ d.length := by
        cases d with
        | nil => exact absurd rfl hd
        | cons _ _ => simp
      calc 1 ≤ d.length := this
        _ ≤ (d :: s1').flatten.length + s2.flatten.length := by
          simp [Nat.le_add_right]
          omega
  omega

end SpatialClusteringHelper

/-- A decorated source layer as placed into a composite widget's
children by `buildClassifiedLayer`: the spread copy of the layer plus
the assigned `widgetType` and `badgeClass`. -/
structure DLayer where
  base : Layer
  widgetType : WidgetType
  badgeClass : String
deriving DecidableEq, Repr

/-- The `layout` record set on synthesized containers. -/
structure Layout where
  direction : Direction
  wrap : String
  justifyContent : String
  alignItems : String
deriving DecidableEq, Repr

/-- Output node of the orchestrator (the classified-layer objects built
by `buildClassifiedLayer`, `buildWidgetFromLayer`, `createRowContainer`
and `createColumnContainer`). Optional JavaScript fields are `Option`s
or defaulted flags. Composite widgets store their decorated source
layers in `compChildren` (the source reuses the `children` slot for
them; they are split off here because their record shape differs from
output nodes). -/
inductive ONode : Type where
  | mk (id : ℕ) (name : String) (type : LayerType) (widgetType : WidgetType)
       (visible : Bool) (bounds : Bounds) (children : List ONode)
       (isSmartDetected : Bool) (confidence : Option ℚ)
       (compositeData : Option CompositeData) (isComposite : Bool)
       (compChildren : List DLayer) (sourceLayerCount : Option ℕ)
       (textInfo : Option TextInfo) (hasImage : Bool)
       (badgeClass : Option String) (layout : Option Layout)
       (isRepeatingPattern : Bool) (patternCount : Option ℕ)

/-- Assigned widget type. -/
def ONode.widgetType : ONode → WidgetType
  | .mk _ _ _ wt _ _ _ _ _ _ _ _ _ _ _ _ _ _ _ => wt

/-- Bounding box. -/
def ONode.bounds : ONode → Bounds
  | .mk _ _ _ _ _ b _ _ _ _ _ _ _ _ _ _ _ _ _ => b

/-- Child output nodes. -/
def ONode.children : ONode → List ONode
  | .mk _ _ _ _ _ _ cs _ _ _ _ _ _ _ _ _ _ _ _ => cs

/-- Layout record (containers only). -/
def ONode.layout : ONode → Option Layout
  | .mk _ _ _ _ _ _ _ _ _ _ _ _ _ _ _ _ lo _ _ => lo

/-- Replace the children list (`element.children = …`). -/
def ONode.setChildren : ONode → List ONode → ONode
  | .mk i n ty wt v b _ sd cf cd ic cc slc ti hi bc lo irp pc, cs =>
    .mk i n ty wt v b cs sd cf cd ic cc slc ti hi bc lo irp pc

/-- Set the badge class (`element.badgeClass = …`). -/
def ONode.setBadge : ONode → String → ONode
  | .mk i n ty wt v b cs sd cf cd ic cc slc ti hi _ lo irp pc, s =>
    .mk i n ty wt v b cs sd cf cd ic cc slc ti hi (some s) lo irp pc

/-- Display name of a widget type (the JavaScript string values). -/
def WidgetType.str : WidgetType → String
  | .container => "container"
  | .heading => "heading"
  | .textEditor => "text-editor"
  | .button => "button"
  | .image => "image"
  | .imageBox => "image-box"
  | .iconBox => "icon-box"
  | .iconList => "icon-list"

/-- `generateId` draws a random identifier; no modelled logic reads
generated ids, so the injected generator is modelled as a constant. -/
def generateId : ℕ := 0

namespace StructureInferenceEngine

/-- Result of `detectRepeatingPatterns` (the echoed `clusters` field is
dropped: callers keep their own reference). -/
structure RepeatingInfo where
  isRepeating : Bool
  count : ℕ
  widgetType : Option WidgetType
  avgWidth : ℚ
  avgHeight : ℚ
deriving DecidableEq, Repr

/-- `StructureInferenceEngine.detectRepeatingPatterns`: wraps the
helper's pattern check and samples the first cluster's widget type
(callers only invoke it with nonempty cluster lists; the empty fallback
feeds `inferWidgetType []`). -/
def detectRepeatingPatterns (clusters : List (List Layer)) : RepeatingInfo :=
  let pattern := SpatialClusteringHelper.detectRepeatingPattern clusters
  if ¬ pattern.isRepeating then ⟨false, 0, none, 0, 0⟩
  else
    let sampleType := inferWidgetType (clusters.headD [])
    ⟨true, pattern.count, some sampleType.widgetType, pattern.avgWidth, pattern.avgHeight⟩

/-- The decoration applied to each composite source layer inside
`buildClassifiedLayer`: `{...l, widgetType: classifySingleLayer(l).widgetType,
badgeClass: …}`. -/
def decorateLayer (l : Layer) : DLayer :=
  ⟨l, (classifySingleLayer l).widgetType,
    if l.type = LayerType.text then
      (match l.textInfo with
       | some ti => if ti.fontSize ≥ 24 then "heading" else "text"
       | none => "text")
    else if l.hasImage ∨ l.type = LayerType.image then "image" else "container"⟩

/-- `StructureInferenceEngine.buildClassifiedLayer`. -/
def buildClassifiedLayer (inference : WidgetInference) (bounds : Bounds) : ONode :=
  let wt := inference.widgetType
  let baseType :=
    if wt = WidgetType.container then LayerType.group
    else match inference.layers with
      | [] => LayerType.group
      | l :: _ => l.type
  ONode.mk generateId ("Smart " ++ wt.str) baseType wt true bounds []
    true (some inference.confidence) inference.compositeData
    inference.compositeData.isSome
    (if inference.compositeData.isSome ∧ inference.layers ≠ []
     then inference.layers.map decorateLayer else [])
    (if wt = WidgetType.container then some inference.layers.length else none)
    (if wt = WidgetType.heading ∨ wt = WidgetType.textEditor then
       (match inference.layers with
        | l :: _ => l.textInfo
        | [] => none)
     else none)
    false none none false none

end StructureInferenceEngine

namespace RawPSDAdapter

/-- `CONFIG.PROXIMITY_THRESHOLD`. -/
def PROXIMITY_THRESHOLD : ℚ := 50

/-- `RawPSDAdapter.getBadgeClass` (a total map here, so the
`|| 'container'` fallback never fires). -/
def getBadgeClass : WidgetType → String
  | .container => "container"
  | .heading => "heading"
  | .textEditor => "text"
  | .button => "button"
  | .image => "image"
  | .imageBox => "image-box"
  | .iconBox => "icon-box"
  | .iconList => "icon-list"

/-- `RawPSDAdapter.buildWidgetFromLayer`. -/
def buildWidgetFromLayer (layer : Layer) (inference : WidgetInference) : ONode :=
  ONode.mk layer.id layer.name layer.type inference.widgetType layer.visible layer.bounds []
    true (some inference.confidence) none false [] none layer.textInfo layer.hasImage
    (some (getBadgeClass inference.widgetType)) none false none

/-- `RawPSDAdapter.processCluster`: classify the cluster, and for a
multi-layer container recursively sub-cluster at 0.6× the proximity
threshold (when that splits the cluster) or classify each layer
individually (when it does not); finally set the badge class. -/
def processCluster (cluster : List Layer) : ONode :=
  let inference := StructureInferenceEngine.inferWidgetType cluster
  let bounds := SpatialClusteringHelper.calculateClusterBounds cluster
  let element := StructureInferenceEngine.buildClassifiedLayer inference bounds
  let element2 :=
    if inference.widgetType = WidgetType.container ∧ 1 < cluster.length then
      if h : 1 < (SpatialClusteringHelper.clusterByProximity cluster
          (PROXIMITY_THRESHOLD * (6/10))).length then
        element.setChildren
          ((SpatialClusteringHelper.clusterByProximity cluster
            (PROXIMITY_THRESHOLD * (6/10))).attach.map (fun s => processCluster s.1))
      else
        element.setChildren (cluster.map (fun layer =>
          buildWidgetFromLayer layer (StructureInferenceEngine.inferWidgetType [layer])))
    else element
  element2.setBadge (getBadgeClass element2.widgetType)
termination_by cluster.length
decreasing_by
  exact SpatialClusteringHelper.clusterByProximity_piece_lt cluster
    (PROXIMITY_THRESHOLD * (6/10)) h s.1 s.2

/-- `RawPSDAdapter.createRowContainer`: a synthesized horizontal
container around the clusters of one row, annotated with
repeating-pattern metadata when detected. -/
def createRowContainer (clusters : List (List Layer)) : ONode :=
  let allLayers := clusters.flatten
  let bounds := SpatialClusteringHelper.calculateClusterBounds allLayers
  let pattern := StructureInferenceEngine.detectRepeatingPatterns clusters
  ONode.mk generateId (if pattern.isRepeating then "Card Row" else "Row Container")
    LayerType.group WidgetType.container true bounds
    (clusters.map processCluster) true none none false [] none none false
    (some "container") (some ⟨Direction.row, "nowrap", "space-between", "flex-start"⟩)
    pattern.isRepeating (if pattern.isRepeating then some pattern.count else none)

/-- `RawPSDAdapter.createColumnContainer`: the synthesized root column
container spanning the union bounds of its elements. The source seeds
its min/max with `Math.min(...)/Math.max(...)` over the element bounds;
for a nonempty list this equals folding from the first element (the
function is only invoked with at least two elements, so the empty case
is unreachable and modelled with the zero record). -/
def createColumnContainer (elements : List ONode) : ONode :=
  let bounds :=
    match elements with
    | [] => (⟨0, 0, 0, 0, 0, 0⟩ : Bounds)
    | e :: es =>
      let top := (es.map (fun x => x.bounds.top)).foldl min e.bounds.top
      let left := (es.map (fun x => x.bounds.left)).foldl min e.bounds.left
      let right := (es.map (fun x => x.bounds.right)).foldl max e.bounds.right
      let bottom := (es.map (fun x => x.bounds.bottom)).foldl max e.bounds.bottom
      ⟨top, left, right, bottom, right - left, bottom - top⟩
  ONode.mk generateId "Root Container" LayerType.group WidgetType.container true bounds
    elements true none none false [] none none false
    (some "container") (some ⟨Direction.column, "nowrap", "flex-start", "stretch"⟩)
    false none

/-- The `for (const row of rows)` loop of `buildTree`: empty rows are
skipped, a single-cluster row is classified directly, and a
multi-cluster row becomes a row container. -/
def rowResults (rows : List (List (List Layer))) : List ONode :=
  rows.filterMap (fun row =>
    match row with
    | [] => none
    | [cluster] => some (processCluster cluster)
    | _ => some (createRowContainer row))

/-- `RawPSDAdapter.buildTree`: the collected row results, returned
as-is when there is exactly one, wrapped in a synthesized column
container when there are several, and empty when there are none. -/
def buildTree (rows : List (List (List Layer))) : List ONode :=
  let result := rowResults rows
  if result.length = 0 then []
  else if result.length = 1 then result
  else [createColumnContainer result]

end RawPSDAdapter

/-- Folding `min` never exceeds the seed. -/
theorem foldl_min_le_init (l : List ℚ) (a : ℚ) : l.foldl min a ≤ a := by
  induction l generalizing a with
  | nil => simp
  | cons x xs ih => exact le_trans (ih (min a x)) (min_le_left a x)

/-- Folding `min` bounds every list member from below. -/
theorem foldl_min_le_mem (l : List ℚ) (a : ℚ) : ∀ x ∈ l, l.foldl min a ≤ x := by
  induction l generalizing a with
  | nil => intro x hx; simp at hx
  | cons y ys ih =>
    intro x hx
    rcases List.mem_cons.mp hx with rfl | hx'
    · exact le_trans (foldl_min_le_init ys (min a x)) (min_le_right a x)
    · exact ih (min a y) x hx'

/-- Folding `max` dominates the seed. -/
theorem le_foldl_max_init (l : List ℚ) (a : ℚ) : a ≤ l.foldl max a := by
  induction l generalizing a with
  | nil => simp
  | cons x xs ih => exact le_trans (le_max_left a x) (ih (max a x))

/-- Folding `max` bounds every list member from above. -/
theorem le_foldl_max_mem (l : List ℚ) (a : ℚ) : ∀ x ∈ l, x ≤ l.foldl max a := by
  induction l generalizing a with
  | nil => intro x hx; simp at hx
  | cons y ys ih =>
    intro x hx
    rcases List.mem_cons.mp hx with rfl | hx'
    · exact le_trans (le_max_right a x) (le_foldl_max_init ys (max a x))
    · exact ih (max a y) x hx'

/-- C10 counterexample: the output is not a single-root tree for every
input — with no (nonempty) rows, `buildTree` returns an empty list, so
there is no root at all. -/
theorem buildTree_empty_no_root :
    RawPSDAdapter.buildTree [] = [] ∧ (RawPSDAdapter.buildTree []).length ≠ 1 ∧
    RawPSDAdapter.buildTree [[]] = [] := by
  refine ⟨rfl, by simp [RawPSDAdapter.buildTree, RawPSDAdapter.rowResults], ?_⟩
  simp [RawPSDAdapter.buildTree, RawPSDAdapter.rowResults]

/-- C10 amended: whenever the row pass yields at least one top-level
result, the output is a single-root tree: exactly one result is
returned as-is, and several results are wrapped in one synthesized
column container whose children are exactly those results and whose
bounds contain every result's bounds. -/
theorem buildTree_single_root (rows : List (List (List Layer)))
    (h : RawPSDAdapter.rowResults rows ≠ []) :
    (RawPSDAdapter.buildTree rows).length = 1 ∧
    ((RawPSDAdapter.rowResults rows).length = 1 →
      RawPSDAdapter.buildTree rows = RawPSDAdapter.rowResults rows) ∧
    (1 < (RawPSDAdapter.rowResults rows).length →
      RawPSDAdapter.buildTree rows =
        [RawPSDAdapter.createColumnContainer (RawPSDAdapter.rowResults rows)] ∧
      (RawPSDAdapter.createColumnContainer (RawPSDAdapter.rowResults rows)).children =
        RawPSDAdapter.rowResults rows ∧
      ∀ e ∈ RawPSDAdapter.rowResults rows,
        (RawPSDAdapter.createColumnContainer (RawPSDAdapter.rowResults rows)).bounds.top ≤
            e.bounds.top ∧
        (RawPSDAdapter.createColumnContainer (RawPSDAdapter.rowResults rows)).bounds.left ≤
            e.bounds.left ∧
        e.bounds.right ≤
            (RawPSDAdapter.createColumnContainer (RawPSDAdapter.rowResults rows)).bounds.right ∧
        e.bounds.bottom ≤
            (RawPSDAdapter.createColumnContainer (RawPSDAdapter.rowResults rows)).bounds.bottom) := by
  have hlen0 : ¬ ((RawPSDAdapter.rowResults rows).length = 0) :=
    fun h0 => h (List.length_eq_zero.mp h0)
  refine ⟨?_, ?_, ?_⟩
  · unfold RawPSDAdapter.buildTree
    rw [if_neg hlen0]
    by_cases h1 : (RawPSDAdapter.rowResults rows).length = 1
    · rw [if_pos h1]; exact h1
    · rw [if_neg h1]; rfl
  · intro h1
    unfold RawPSDAdapter.buildTree
    rw [if_neg hlen0, if_pos h1]
  · intro hmulti
    have h1 : ¬ ((RawPSDAdapter.rowResults rows).length = 1) := by omega
    refine ⟨?_, ?_, ?_⟩
    · unfold RawPSDAdapter.buildTree
      rw [if_neg hlen0, if_neg h1]
    · match hres : RawPSDAdapter.rowResults rows with
      | [] => exact absurd hres h
      | e :: es => rfl
    · intro e he
      match hres : RawPSDAdapter.rowResults rows, he with
      | e0 :: es, he =>
        rcases List.mem_cons.mp he with rfl | he'
        · exact ⟨foldl_min_le_init _ _, foldl_min_le_init _ _,
            le_foldl_max_init _ _, le_foldl_max_init _ _⟩
        · exact ⟨foldl_min_le_mem _ _ _ (List.mem_map_of_mem _ he'),
            foldl_min_le_mem _ _ _ (List.mem_map_of_mem _ he'),
            le_foldl_max_mem _ _ _ (List.mem_map_of_mem _ he'),
            le_foldl_max_mem _ _ _ (List.mem_map_of_mem _ he')⟩

/-- Two single-cluster rows holding the two example layers. -/
def exRows : List (List (List Layer)) := [[[layerA]], [[layerB]]]

/-- C10 witness: the amended theorem applied to two concrete rows — the
output is a single root. -/
theorem buildTree_single_root_witness :
    (RawPSDAdapter.buildTree exRows).length = 1 :=
  (buildTree_single_root exRows (by simp [RawPSDAdapter.rowResults, exRows])).1
